import Mathlib

/-!
Verification of the macOS UI monitoring engine (osmonitor).

This file gives a shallow embedding of the core data model and operations of
the repository — the event sink (`MacOSUIMonitor._add_event`), the bounded
event history, the frontmost-app resolver (`_get_frontmost_app_info`), the
UI-state tracker (`_update_ui_state`), the mouse monitor click loop
(`MouseMonitor._track_mouse`), element identity (`MacOSUIElement.object_id`),
callback dispatch (`_notify_callbacks`), event serialization
(`UIEvent.to_dict`) and the JSON timeline writer (`_write_to_timeline` /
`stop`) — and proves or refutes the specified properties about them.

Modelling conventions:
- OS-level calls (AppKit, ApplicationServices, subprocess) are modelled as
  observation records passed to the embedded functions; an observation field
  of type `Option _` has value `none` when the underlying call failed,
  raised, or returned a falsy result, matching the source's `try/except`
  blocks that fall through to the next strategy / treat failure as
  "no information".
- Python's heterogeneous runtime values (the open `details` mapping of an
  event) are modelled by the `PyVal` type; Python attribute errors raised by
  calling `.get` on a non-dict are modelled with `Except`.
- Python truthiness (`if x:`) is modelled by `PyVal.truthy` and, for
  integers, by an explicit `≠ 0` test.
- `str.splitlines` is modelled by splitting on a newline character; the two
  differ only in trailing empty lines, which every parser below ignores.
- Machine floats (timestamps, coordinates) are modelled by `ℚ`; the source
  only moves them around and compares them, it never does float-specific
  arithmetic in the modelled code paths.
-/

set_option maxRecDepth 10000

namespace OSMonitor

/-! ### Bounded event history (`MacOSUIMonitor._add_event`, history part)

The source appends the event and then trims with the Python slice
`ui_events[-history_size:]`.  For `history_size = 0` that slice is the whole
list (Python `l[-0:] = l`), which is modelled faithfully by `pySliceLast`. -/

/-- Python's `l[-n:]` for a nonnegative `n`: the last `n` elements, except
that `n = 0` yields the whole list. -/
def pySliceLast (n : Nat) (l : List α) : List α :=
  if n = 0 then l else l.drop (l.length - n)

/-- The history update performed by `_add_event`: append, then trim when the
length exceeds `history_size`. -/
def addEventHist (historySize : Nat) (l : List α) (e : α) : List α :=
  let l2 := l ++ [e]
  if l2.length > historySize then pySliceLast historySize l2 else l2

/-- The in-memory history after a sequence of `_add_event` calls, starting
from the empty history set up by the constructor. -/
def runHistory (historySize : Nat) (es : List α) : List α :=
  es.foldl (addEventHist historySize) []

theorem runHistory_concat (n : Nat) (es : List α) (e : α) :
    runHistory n (es ++ [e]) = addEventHist n (runHistory n es) e := by
  simp [runHistory, List.foldl_append]

theorem runHistory_eq_drop {n : Nat} (hn : 1 ≤ n) (es : List α) :
    runHistory n es = es.drop (es.length - n) := by
  induction es using List.reverseRecOn with
  | nil => simp [runHistory]
  | append_singleton es e ih =>
    rw [runHistory_concat, ih]
    by_cases h : es.length < n
    · have h0 : es.length - n = 0 := by omega
      have h1 : es.length + 1 - n = 0 := by omega
      simp [addEventHist, h0, h1, pySliceLast]
    · push_neg at h
      have hlen : (es.drop (es.length - n)).length = n := by
        simp [List.length_drop]; omega
      have hgt : (es.drop (es.length - n) ++ [e]).length > n := by
        simp [hlen]
      simp only [addEventHist, hgt, if_pos, pySliceLast]
      have hn0 : ¬ n = 0 := by omega
      simp only [hn0, if_false]
      have hlen2 : (es.drop (es.length - n) ++ [e]).length - n = 1 := by
        simp [hlen]
      rw [hlen2]
      have hle : 1 ≤ (es.drop (es.length - n)).length := by omega
      rw [List.drop_append_of_le_length (by omega), List.drop_drop]
      have heq : es.length - n + 1 = es.length + 1 - n := by omega
      rw [heq]
      have h2 : es.length + 1 - n ≤ es.length := by omega
      have h3 : (es ++ [e]).length - n = es.length + 1 - n := by simp
      rw [h3, List.drop_append_of_le_length h2]

/-! ### Element identity (`MacOSUIElement.object_id`, src/macos_accessibility.py)

The source computes `int(hashlib.md5(hash_input.encode()).hexdigest(), 16)
% (2**64)` where `hash_input = f"{role}{title}{width}{height}{count_of_children}"`.
MD5 is embedded in full below (RFC 1321); `.encode()` is UTF-8.  The numeric
width/height returned by `get_size` are modelled as naturals, rendered with
`toString` exactly as Python renders integral values in an f-string. -/

/-- 2^32, the word modulus of MD5. -/
def m32 : Nat := 4294967296

/-- UTF-8 encoding of one character (Python `str.encode()`). -/
def utf8Char (c : Char) : List Nat :=
  let n := c.toNat
  if n < 128 then [n]
  else if n < 2048 then [192 ||| (n >>> 6), 128 ||| (n &&& 63)]
  else if n < 65536 then
    [224 ||| (n >>> 12), 128 ||| ((n >>> 6) &&& 63), 128 ||| (n &&& 63)]
  else
    [240 ||| (n >>> 18), 128 ||| ((n >>> 12) &&& 63),
     128 ||| ((n >>> 6) &&& 63), 128 ||| (n &&& 63)]

/-- UTF-8 encoding of a string as a byte list. -/
def utf8Encode (s : String) : List Nat :=
  s.data.foldr (fun c acc => utf8Char c ++ acc) []

/-- `count` little-endian bytes of `n`. -/
def leBytes (n : Nat) : Nat → List Nat
  | 0 => []
  | k + 1 => (n % 256) :: leBytes (n / 256) k

/-- MD5 sine-derived round constants `K[0..63]`. -/
def md5K : List Nat :=
  [0xd76aa478, 0xe8c7b756, 0x242070db, 0xc1bdceee,
   0xf57c0faf, 0x4787c62a, 0xa8304613, 0xfd469501,
   0x698098d8, 0x8b44f7af, 0xffff5bb1, 0x895cd7be,
   0x6b901122, 0xfd987193, 0xa679438e, 0x49b40821,
   0xf61e2562, 0xc040b340, 0x265e5a51, 0xe9b6c7aa,
   0xd62f105d, 0x02441453, 0xd8a1e681, 0xe7d3fbc8,
   0x21e1cde6, 0xc33707d6, 0xf4d50d87, 0x455a14ed,
   0xa9e3e905, 0xfcefa3f8, 0x676f02d9, 0x8d2a4c8a,
   0xfffa3942, 0x8771f681, 0x6d9d6122, 0xfde5380c,
   0xa4beea44, 0x4bdecfa9, 0xf6bb4b60, 0xbebfbc70,
   0x289b7ec6, 0xeaa127fa, 0xd4ef3085, 0x04881d05,
   0xd9d4d039, 0xe6db99e5, 0x1fa27cf8, 0xc4ac5665,
   0xf4292244, 0x432aff97, 0xab9423a7, 0xfc93a039,
   0x655b59c3, 0x8f0ccc92, 0xffeff47d, 0x85845dd1,
   0x6fa87e4f, 0xfe2ce6e0, 0xa3014314, 0x4e0811a1,
   0xf7537e82, 0xbd3af235, 0x2ad7d2bb, 0xeb86d391]

/-- MD5 per-round left-rotation amounts `s[0..63]`. -/
def md5S : List Nat :=
  [7, 12, 17, 22, 7, 12, 17, 22, 7, 12, 17, 22, 7, 12, 17, 22,
   5, 9, 14, 20, 5, 9, 14, 20, 5, 9, 14, 20, 5, 9, 14, 20,
   4, 11, 16, 23, 4, 11, 16, 23, 4, 11, 16, 23, 4, 11, 16, 23,
   6, 10, 15, 21, 6, 10, 15, 21, 6, 10, 15, 21, 6, 10, 15, 21]

/-- The MD5 nonlinear function for round `i`. -/
def md5F (i b c d : Nat) : Nat :=
  if i < 16 then (b &&& c) ||| ((b ^^^ 0xffffffff) &&& d)
  else if i < 32 then (d &&& b) ||| ((d ^^^ 0xffffffff) &&& c)
  else if i < 48 then b ^^^ c ^^^ d
  else c ^^^ (b ||| (d ^^^ 0xffffffff))

/-- The MD5 message-word index for round `i`. -/
def md5G (i : Nat) : Nat :=
  if i < 16 then i
  else if i < 32 then (5 * i + 1) % 16
  else if i < 48 then (3 * i + 5) % 16
  else (7 * i) % 16

/-- 32-bit left rotation. -/
def rotl32 (x n : Nat) : Nat := ((x <<< n) ||| (x >>> (32 - n))) % m32

/-- Little-endian 32-bit word `g` of a 64-byte chunk. -/
def md5Word (chunk : List Nat) (g : Nat) : Nat :=
  chunk.getD (4 * g) 0 + 256 * chunk.getD (4 * g + 1) 0 +
    65536 * chunk.getD (4 * g + 2) 0 + 16777216 * chunk.getD (4 * g + 3) 0

/-- One MD5 round applied to the state `(a, b, c, d)`. -/
def md5Round (chunk : List Nat) (st : Nat × Nat × Nat × Nat) (i : Nat) :
    Nat × Nat × Nat × Nat :=
  let (a, b, c, d) := st
  let f := (md5F i b c d + a + md5K.getD i 0 + md5Word chunk (md5G i)) % m32
  (d, (b + rotl32 f (md5S.getD i 0)) % m32, b, c)

/-- Process one 64-byte chunk of the padded message. -/
def md5Chunk (st : Nat × Nat × Nat × Nat) (chunk : List Nat) :
    Nat × Nat × Nat × Nat :=
  let r := (List.range 64).foldl (md5Round chunk) st
  ((st.1 + r.1) % m32, (st.2.1 + r.2.1) % m32,
   (st.2.2.1 + r.2.2.1) % m32, (st.2.2.2 + r.2.2.2) % m32)

/-- MD5 padding: a 1-bit, zeros to 56 mod 64, then the bit length as a
64-bit little-endian quantity. -/
def md5Pad (msg : List Nat) : List Nat :=
  let padZeros := (64 + 56 - (msg.length + 1) % 64) % 64
  msg ++ [128] ++ List.replicate padZeros 0 ++ leBytes (msg.length * 8 % 2 ^ 64) 8

/-- Split a byte list into 64-byte chunks. -/
def splitChunks (l : List Nat) : List (List Nat) :=
  if h : l = [] then [] else l.take 64 :: splitChunks (l.drop 64)
termination_by l.length
decreasing_by
  cases l with
  | nil => exact absurd rfl h
  | cons x xs => simp [List.length_drop]; omega

/-- The 16 digest bytes of the MD5 of a byte message. -/
def md5Digest (msg : List Nat) : List Nat :=
  let st := (splitChunks (md5Pad msg)).foldl md5Chunk
    (0x67452301, 0xefcdab89, 0x98badcfe, 0x10325476)
  leBytes st.1 4 ++ leBytes st.2.1 4 ++ leBytes st.2.2.1 4 ++ leBytes st.2.2.2 4

/-- Python's `int(md5(msg).hexdigest(), 16)`: the digest bytes read as one
big-endian number. -/
def md5Int (msg : List Nat) : Nat :=
  (md5Digest msg).foldl (fun acc b => acc * 256 + b) 0

/-- The hash input string of `object_id`:
`f"{role}{title}{width}{height}{count_of_children}"`. -/
def hashInput (role title : String) (width height childCount : Nat) : String :=
  role ++ title ++ toString width ++ toString height ++ toString childCount

/-- `MacOSUIElement.object_id`: the MD5 of the concatenated attributes,
truncated to 64 bits. -/
def object_id (role title : String) (width height childCount : Nat) : Nat :=
  md5Int (utf8Encode (hashInput role title width height childCount)) % 2 ^ 64

/-! ### Python string helpers used by the resolver parsers

These are structurally recursive renderings of `str.split`, `str.strip`,
`str.lower`, `in`, `str.startswith` and `str.endswith`. -/

/-- Character-level split on every occurrence of a nonempty separator; the
fuel starts above the input length, which one step always consumes. -/
def splitOnAuxL : Nat → List Char → List Char → List Char → List (List Char)
  | 0, _, _, acc => [acc.reverse]
  | fuel + 1, sep, s, acc =>
    if sep.isPrefixOf s then
      acc.reverse :: splitOnAuxL fuel sep (s.drop sep.length) []
    else
      match s with
      | [] => [acc.reverse]
      | c :: t => splitOnAuxL fuel sep t (c :: acc)

/-- Python `s.split(sep)` for a nonempty separator. -/
def pySplit (s sep : String) : List String :=
  (splitOnAuxL (s.data.length + 1) sep.data s.data []).map (fun l => ⟨l⟩)

/-- Python `s.strip()`. -/
def pyStrip (s : String) : String :=
  ⟨((s.data.dropWhile Char.isWhitespace).reverse.dropWhile
      Char.isWhitespace).reverse⟩

/-- Python `s.lower()` (ASCII, which covers every string compared here). -/
def pyLower (s : String) : String := ⟨s.data.map Char.toLower⟩

/-- Python `s.startswith(p)`. -/
def pyStartsWith (s p : String) : Bool := p.data.isPrefixOf s.data

/-- Python `s.endswith(p)`. -/
def pyEndsWith (s p : String) : Bool := p.data.isSuffixOf s.data

/-! ### Python runtime values and dictionaries

`UIEvent.details` is an open `**kwargs` mapping of string keys to arbitrary
Python values.  `PyVal` models the value universe reachable in this program;
dictionaries are insertion-ordered association lists with unique keys. -/

/-- A Python runtime value as it occurs in event `details`. -/
inductive PyVal where
  | pnone
  | pbool (b : Bool)
  | pint (n : Int)
  | pnum (q : ℚ)
  | pstr (s : String)
  | plist (l : List PyVal)
  | pdict (l : List (String × PyVal))

/-- A Python exception kind raised by the modelled code. -/
inductive PyExn where
  | attributeError
  | valueError
deriving DecidableEq

/-- Dictionary lookup (`d[k]` / `d.get(k)`): value of the first (hence, for
a dict, only) binding of `k`. -/
def pyLookup (l : List (String × PyVal)) (k : String) : Option PyVal :=
  match l with
  | [] => none
  | kv :: rest => if kv.1 = k then some kv.2 else pyLookup rest k

/-- Dictionary assignment `d[k] = v`: replace the first binding of `k` in
place, or append a new binding. -/
def pySet (l : List (String × PyVal)) (k : String) (v : PyVal) :
    List (String × PyVal) :=
  match l with
  | [] => [(k, v)]
  | kv :: rest => if kv.1 = k then (k, v) :: rest else kv :: pySet rest k v

/-- Python truthiness `if x:`. -/
def pyTruthy : PyVal → Bool
  | .pnone => false
  | .pbool b => b
  | .pint n => n != 0
  | .pnum q => q != 0
  | .pstr s => s != ""
  | .plist l => !l.isEmpty
  | .pdict l => !l.isEmpty

/-- Attribute-style `x.get(k, default)`: succeeds on a dict, raises
`AttributeError` on every other value. -/
def pyGetAttr (v : PyVal) (k : String) (default : PyVal) : Except PyExn PyVal :=
  match v with
  | .pdict l => .ok ((pyLookup l k).getD default)
  | _ => .error .attributeError

/-- `n.isDigit`-folding of an all-digit character list. -/
def digitsToNat? (ds : List Char) : Option Nat :=
  if ds ≠ [] ∧ ds.all Char.isDigit then
    some (ds.foldl (fun acc c => acc * 10 + (c.toNat - 48)) 0)
  else none

/-- Python `int(s)` on a string: optional sign, decimal digits, surrounding
whitespace already stripped by the callers; `none` models `ValueError`. -/
def pyParseInt (s : String) : Option Int :=
  match (pyStrip s).data with
  | '+' :: ds => (digitsToNat? ds).map Int.ofNat
  | '-' :: ds => (digitsToNat? ds).map (fun n => -(Int.ofNat n))
  | ds => (digitsToNat? ds).map Int.ofNat

/-- Python `int(x)` truncation toward zero for a rational. -/
def ratTrunc (q : ℚ) : Int := if 0 ≤ q then ⌊q⌋ else -⌊-q⌋

/-- Python `int(x)` on a runtime value; `none` models the raised
`TypeError`/`ValueError` (callers catch it). -/
def pyToInt : PyVal → Option Int
  | .pint n => some n
  | .pnum q => some (ratTrunc q)
  | .pbool b => some (if b then 1 else 0)
  | .pstr s => pyParseInt s
  | _ => none

/-! ### Events (`osmonitor/core/events.py`) -/

/-- `UIEvent`: an event tag, a timestamp and the open details mapping. -/
structure UIEvent where
  event_type : String
  timestamp : ℚ
  details : List (String × PyVal)

/-- `UIEvent.to_dict`: the Python dict literal
`{"type": self.event_type, "timestamp": self.timestamp, **self.details}` —
built by inserting `type` and `timestamp` first and then every details
binding, which overwrites on key collision. -/
def UIEvent.to_dict (e : UIEvent) : List (String × PyVal) :=
  e.details.foldl (fun d kv => pySet d kv.1 kv.2)
    [("type", .pstr e.event_type), ("timestamp", .pnum e.timestamp)]

/-! ### Callback dispatch (`MacOSUIMonitor._notify_callbacks`) -/

/-- A registered callback: an identity for trace bookkeeping and its
behaviour on an event (`some exn` models the callback raising). -/
structure Callback where
  id : Nat
  run : UIEvent → Option PyExn

/-- The `for callback in ...: try: callback(event) except: log` loop: every
callback runs in order and its outcome (including a raised exception) is
contained. -/
def runCallbacks : List Callback → UIEvent → List (Nat × Option PyExn)
  | [], _ => []
  | cb :: rest, e => (cb.id, cb.run e) :: runCallbacks rest e

/-- Registry lookup `self.callbacks.get(event.event_type, [])`. -/
def registryGet (callbacks : List (String × List Callback)) (t : String) :
    Option (List Callback) :=
  (callbacks.find? (fun p => p.1 = t)).map (fun p => p.2)

/-- `_notify_callbacks`: run every callback registered for the event's type. -/
def notify_callbacks (callbacks : List (String × List Callback)) (e : UIEvent) :
    List (Nat × Option PyExn) :=
  runCallbacks ((registryGet callbacks e.event_type).getD []) e

/-! ### Screenshot capture (`osmonitor/core/screenshot.py`)

`capture_screenshot` returns `None` when the directory is unset, when the
display image cannot be created, when the `int()` conversion of a mouse
coordinate raises (caught by the function's `try`), or when the PNG write
fails; otherwise it returns the joined file path.  The element-title branch
never alters the filename for the values reachable here: the element passed
in is the `ElementInfo` dict (no `title` attribute) or `None`, and any
other value makes the guarded `re.sub` raise inside the inner `try`. -/

/-- OS-level outcomes observed during one sink call. -/
structure SinkObs where
  osImageOk : Bool
  osWriteOk : Bool
  osTimestamp : String
  outWriteErr : Bool
  timelineWriteErr : Bool
  timelineRecord : String

/-- `f"{counter:06d}"`. -/
def pad6 (n : Nat) : String :=
  let s := toString n
  ⟨List.replicate (6 - s.length) '0'⟩ ++ s

/-- `capture_screenshot(screenshot_dir, mouse_position, current_element,
counter)`. -/
def capture_screenshot (dir : Option String) (mouseX mouseY : PyVal)
    (counter : Nat) (obs : SinkObs) : Option String :=
  match dir with
  | none => none
  | some d =>
    if obs.osImageOk then
      match pyToInt mouseX, pyToInt mouseY with
      | some mx, some my =>
        let filename := "screenshot_" ++ pad6 counter ++ "_mouse_" ++
          toString mx ++ "_" ++ toString my ++ "_" ++ obs.osTimestamp ++ ".png"
        if obs.osWriteOk then some (d ++ "/" ++ filename) else none
      | _, _ => none
    else none

/-! ### The event sink (`MacOSUIMonitor._add_event`) -/

/-- The monitor configuration fields consumed by the sink. -/
structure MonitorCfg where
  history_size : Nat
  take_screenshots : Bool
  screenshot_dir : Option String
  output_file : Option String
  timeline_file : Option String
  timeline_format : String

/-- The mutable monitor state touched by the sink. -/
structure SinkState where
  ui_events : List UIEvent
  screenshot_counter : Nat
  timelineContent : String
  timeline_entry_count : Nat

/-- `_add_event`: history append/trim, optional screenshot side effect,
JSON-lines output write, timeline write, and callback dispatch.  The
returned triple is the new state, the (possibly screenshot-augmented) event
and the callback invocation trace.  The only uncontained failure in the
source is the `pos.get(...)` attribute access on a non-dict `position`
value, modelled by the `Except`. -/
def add_event (cfg : MonitorCfg) (reg : List (String × List Callback))
    (st : SinkState) (e : UIEvent) (obs : SinkObs) :
    Except PyExn (SinkState × UIEvent × List (Nat × Option PyExn)) := do
  let hist := addEventHist cfg.history_size st.ui_events e
  let (e2, counter2) ←
    if e.event_type = "click" ∧ cfg.take_screenshots then do
      let pos := (pyLookup e.details "position").getD (.pdict [])
      let mouseX ← pyGetAttr pos "x" (.pint 0)
      let mouseY ← pyGetAttr pos "y" (.pint 0)
      let counter := st.screenshot_counter + 1
      let details2 :=
        match capture_screenshot cfg.screenshot_dir mouseX mouseY counter obs with
        | some path => pySet e.details "screenshot" (.pstr path)
        | none => e.details
      pure ({ e with details := details2 }, counter)
    else pure (e, st.screenshot_counter)
  -- the output-file write (`json.dumps(event.to_dict())`) is inside a
  -- `try/except`; success or failure leaves no modelled state behind
  let (tl, tlCount) :=
    if cfg.timeline_file.isSome ∧ cfg.timeline_format = "json" ∧
        ¬obs.timelineWriteErr then
      (st.timelineContent ++
         (if st.timeline_entry_count > 0 then ",\n" else "") ++ obs.timelineRecord,
       st.timeline_entry_count + 1)
    else (st.timelineContent, st.timeline_entry_count)
  let trace := notify_callbacks reg e2
  pure ({ ui_events := hist, screenshot_counter := counter2,
          timelineContent := tl, timeline_entry_count := tlCount }, e2, trace)


/-- Python `needle in hay` for a nonempty needle. -/
def pyContains (hay needle : String) : Bool :=
  (pySplit hay needle).length ≥ 2

/-- Python `s.split(sep, 1)`. -/
def pySplit1 (s sep : String) : List String :=
  match pySplit s sep with
  | [] => [s]
  | [x] => [x]
  | x :: rest => [x, String.intercalate sep rest]

/-- Python `s.strip(chars)`: drop the given characters from both ends. -/
def stripChars (s : String) (cs : List Char) : String :=
  ⟨((s.data.dropWhile (· ∈ cs)).reverse.dropWhile (· ∈ cs)).reverse⟩

/-- Python `s.split(None, 1)`: split on the first whitespace run. -/
def pySplitWs1 (s : String) : List String :=
  let l := s.data.dropWhile Char.isWhitespace
  match l with
  | [] => []
  | _ =>
    let tok := l.takeWhile (fun c => !c.isWhitespace)
    let rest := (l.dropWhile (fun c => !c.isWhitespace)).dropWhile Char.isWhitespace
    if rest.isEmpty then [⟨tok⟩] else [⟨tok⟩, ⟨rest⟩]

/-! ### Frontmost-app resolver (`MacOSUIMonitor._get_frontmost_app_info`)

Each OS query is an observation field; `none` covers both a raised
exception and a falsy/empty result (the source treats the two the same way:
log and fall through to the next strategy).  `str.splitlines` is modelled
with `splitOn "\n"`. -/

/-- The record returned by the resolver. -/
structure AppRec where
  name : Option String
  pid : Int
  bundle_id : String
  method : String
deriving DecidableEq

/-- The `NSWorkspace.frontmostApplication()` answer, when it neither raised
nor returned `None`. -/
structure NSWorkspaceApp where
  name : Option String
  pid : Int
  bundleId : Option String
deriving DecidableEq

/-- One observation of all OS queries the resolver may issue. -/
structure ResolveObs where
  nsworkspace : Option NSWorkspaceApp
  applescriptResult : Option String
  lsFront : Option String
  lsInfo : Option String
  psOut : Option String
deriving DecidableEq

/-- Strategy 1: the NSWorkspace query. -/
def strategyNSWorkspace (o : ResolveObs) : Option AppRec :=
  o.nsworkspace.map (fun a => ⟨a.name, a.pid, a.bundleId.getD "", "NSWorkspace"⟩)

/-- Strategy 2: parse the AppleScript output `name:pid`. -/
def strategyAppleScript (o : ResolveObs) : Option AppRec :=
  match o.applescriptResult with
  | none => none
  | some result =>
    if result ≠ "" ∧ pyContains result ":" then
      match pySplit1 result ":" with
      | [appName, pidStr] =>
        match pyParseInt (pyStrip pidStr) with
        | some pid => some ⟨some (pyStrip appName), pid, "", "AppleScript"⟩
        | none => none
      | _ => none
    else none

/-- The `lsappinfo info` line loop: track the last `display name` and `pid`
assignments; a missing `=` raises an `IndexError` that aborts the whole
strategy (modelled by `none`), a bad `int()` is passed over. -/
def lsInfoLoop : List String → Option String → Option Int →
    Option (Option String × Option Int)
  | [], n, p => some (n, p)
  | line :: rest, n, p =>
    if pyContains (pyLower line) "display name" then
      match (pySplit line "=").get? 1 with
      | none => none
      | some v => lsInfoLoop rest (some (stripChars v [' ', '"'])) p
    else if pyContains (pyLower line) "pid" then
      match (pySplit line "=").get? 1 with
      | none => none
      | some v =>
        match pyParseInt (pyStrip v) with
        | some k => lsInfoLoop rest n (some k)
        | none => lsInfoLoop rest n p
    else lsInfoLoop rest n p

/-- Strategy 3: the two `lsappinfo` calls and their parsing. -/
def strategyLsappinfo (o : ResolveObs) : Option AppRec :=
  match o.lsFront with
  | none => none
  | some output =>
    match (pySplit output "\n").find? (fun line => pyContains line "ASN:") with
    | none => none
    | some line =>
      if pyStrip (((pySplit line "ASN:").get? 1).getD "") ≠ "" then
        match o.lsInfo with
        | none => none
        | some info =>
          match lsInfoLoop (pySplit info "\n") none none with
          | none => none
          | some (appName, appPid) =>
            match appName, appPid with
            | some n, some p =>
              if n ≠ "" ∧ p ≠ 0 then some ⟨some n, p, "", "lsappinfo"⟩ else none
            | _, _ => none
      else none

/-- Least element of the `(pid, command)` list under Python's tuple order:
the head of `gui_apps` after `gui_apps.sort()`. -/
def lexMinPidCmd (l : List (Int × String)) : Option (Int × String) :=
  l.foldl (fun acc x =>
    match acc with
    | none => some x
    | some a => if x.1 < a.1 ∨ (x.1 = a.1 ∧ x.2 < a.2) then some x else some a) none

/-- Strategy 4: scan `ps -axco pid,command`, filter the obvious background
processes, and take the live entry with the lowest pid. -/
def strategyPs (o : ResolveObs) : Option AppRec :=
  match o.psOut with
  | none => none
  | some out =>
    let rows := (pySplit (pyStrip out) "\n").drop 1
    let gui_apps := rows.filterMap (fun line =>
      match pySplitWs1 (pyStrip line) with
      | [pidStr, command] =>
        match pyParseInt pidStr with
        | some pid =>
          if ¬pyEndsWith command "helper" ∧ ¬pyStartsWith command "com.apple." ∧
              command ≠ "launchd" ∧ command ≠ "kernel_task" then
            some (pid, command)
          else none
        | none => none
      | _ => none)
    match lexMinPidCmd gui_apps with
    | none => none
    | some (pid, command) => some ⟨some command, pid, "", "ps"⟩

/-- `_get_frontmost_app_info`: the ordered, short-circuiting strategy chain
with the cached-pid fallback.  `if self.current_app_pid:` is Python
truthiness, hence the `≠ 0` test. -/
def get_frontmost_app_info (o : ResolveObs) (current_app_pid : Option Int) :
    Option AppRec :=
  match strategyNSWorkspace o with
  | some r => some r
  | none =>
    match strategyAppleScript o with
    | some r => some r
    | none =>
      match strategyLsappinfo o with
      | some r => some r
      | none =>
        match strategyPs o with
        | some r => some r
        | none =>
          match current_app_pid with
          | some p =>
            if p ≠ 0 then some ⟨some "Unknown App", p, "", "fallback"⟩ else none
          | none => none

/-! ### UI-state tracker (`MacOSUIMonitor._update_ui_state`)

One call is modelled as a function of the current tracked state and one
observation of every OS query the call can issue.  Stored handles carry the
query results that later re-queries on them would produce; under the
claim's "identical consecutive observations" hypothesis this is exactly the
source's behaviour.  Element identities are the `object_id` values. -/

/-- Outcome of a `get_title()` call on a stored handle: raised, returned
`None`, or returned a string. -/
inductive TRes where
  | err
  | noneV
  | val (s : String)
deriving DecidableEq

/-- `old_app_name`: `None` stays `None`, an exception reads `"Unknown"`. -/
def oldAppName : TRes → Option String
  | .err => some "Unknown"
  | .noneV => none
  | .val s => some s

/-- `clean_accessibility_value(raw_title) or default`, with the enclosing
`try/except` default. -/
def cleanTitleOr (t : TRes) (onErr onEmpty : String) : String :=
  match t with
  | .err => onErr
  | .noneV => onEmpty
  | .val s => if pyStrip s = "" then onEmpty else pyStrip s

/-- A window handle as observed: its identity and its title query result. -/
structure WinObs where
  id : Nat
  titleRes : TRes
deriving DecidableEq

/-- The focused element as observed: its identity and its `ElementInfo`
dictionary payload. -/
structure FocusObs where
  id : Nat
  payload : String
deriving DecidableEq

/-- A stored application handle (only its title query result is consumed). -/
structure AppH where
  titleRes : TRes
deriving DecidableEq

/-- One observation of every UI query `_update_ui_state` can make. -/
structure UIObs where
  front : Option AppRec
  appElemOk : Bool
  appTitle : TRes
  axWindows : List WinObs
  asWindowNames : List String
  focused : Option FocusObs
deriving DecidableEq

/-- The tracker's state: `current_app_pid`, `current_app`, `current_window`
and `current_element` (by identity). -/
structure UIState where
  current_app_pid : Option Int
  current_app : Option AppH
  current_window : Option WinObs
  current_element : Option Nat
deriving DecidableEq

/-- A transition event emitted by the tracker. -/
inductive UEvent where
  | app_change (old_app new_app : Option String) (pid : Int) (method : String)
  | window_change (old_window new_window method : String)
  | focus_change (element : String)
deriving DecidableEq

/-- The app axis of `_update_ui_state`: on a pid change, update the pid,
try to create the app element, and emit `app_change` only if creation
succeeded. -/
def appStep (s : UIState) (fa : AppRec) (o : UIObs) : UIState × Option UEvent :=
  if s.current_app_pid ≠ some fa.pid then
    let oldName := s.current_app.bind (fun h => oldAppName h.titleRes)
    let s1 := { s with current_app_pid := some fa.pid }
    if o.appElemOk then
      ({ s1 with current_app := some ⟨o.appTitle⟩ },
       some (.app_change oldName fa.name fa.pid fa.method))
    else (s1, none)
  else (s, none)

/-- The windows obtained in the window axis: the accessibility query runs
only when a current app handle exists. -/
def effWindows (s : UIState) (o : UIObs) : List WinObs :=
  if s.current_app.isSome then o.axWindows else []

/-- The window axis: accessibility windows when available (compared by
identity), otherwise the AppleScript fallback, which emits unconditionally
and clears the stored window. -/
def winStep (s : UIState) (o : UIObs) : UIState × Option UEvent :=
  match effWindows s o with
  | [] =>
    match o.asWindowNames with
    | [] => (s, none)
    | wn :: _ =>
      let oldW := if s.current_window.isNone then "Unknown" else "Previous Window"
      ({ s with current_window := none },
       some (.window_change oldW wn "AppleScript"))
  | w :: _ =>
    if s.current_window.map WinObs.id ≠ some w.id then
      let oldT := match s.current_window with
        | none => "Unknown"
        | some cw => cleanTitleOr cw.titleRes "Unknown" "Previous Window"
      let newT := cleanTitleOr w.titleRes "Unknown" "Untitled Window"
      ({ s with current_window := some w },
       some (.window_change oldT newT "Accessibility"))
    else (s, none)

/-- The focus axis: query the focused element of the current app and emit
`focus_change` on an identity change. -/
def focStep (s : UIState) (o : UIObs) : UIState × Option UEvent :=
  if s.current_app.isSome then
    match o.focused with
    | none => (s, none)
    | some f =>
      if s.current_element ≠ some f.id then
        ({ s with current_element := some f.id }, some (.focus_change f.payload))
      else (s, none)
  else (s, none)

/-- `_update_ui_state`: nothing happens when the resolver fails; otherwise
the three axes run in order on the threaded state. -/
def update_ui_state (s : UIState) (o : UIObs) : UIState × List UEvent :=
  match o.front with
  | none => (s, [])
  | some fa =>
    let a := appStep s fa o
    let w := winStep a.1 o
    let f := focStep w.1 o
    (f.1, a.2.toList ++ w.2.toList ++ f.2.toList)

/-- The transition-event axis tag of an emitted event. -/
def evType : UEvent → String
  | .app_change .. => "app_change"
  | .window_change .. => "window_change"
  | .focus_change .. => "focus_change"

/-- Number of emitted events of a given axis tag. -/
def countType (t : String) (l : List UEvent) : Nat :=
  (l.filter (fun e => evType e = t)).length

/-! ### Mouse monitor (`MouseMonitor._track_mouse`)

One loop iteration is a function of the loop state and one sample of the
pointer observations.  The minimum inter-click interval in the source is
the literal `0.1`. -/

/-- One sample of the OS pointer queries made by an iteration. -/
structure MouseSample where
  locX : ℚ
  locY : ℚ
  screenHeight : ℚ
  buttons : Nat
  time : ℚ
  elementAt : Option String
deriving DecidableEq

/-- The mouse monitor's loop state. -/
structure MouseState where
  mouse_position : ℚ × ℚ
  prev_position : Option (ℚ × ℚ)
  prev_click_time : ℚ
  last_click_position : Option (ℚ × ℚ)
  last_click_element : Option String
deriving DecidableEq

/-- A `click` event as emitted by the mouse monitor. -/
structure ClickEvent where
  button : String
  position : ℚ × ℚ
  element : Option String
  time : ℚ
deriving DecidableEq

/-- One iteration of `_track_mouse`'s while loop. -/
def track_mouse_step (st : MouseState) (s : MouseSample) :
    MouseState × Option ClickEvent :=
  let pos : ℚ × ℚ := (s.locX, s.screenHeight - s.locY)
  let st1 := { st with mouse_position := pos }
  let st2 :=
    match st1.prev_position with
    | none => { st1 with prev_position := some pos }
    | some pp =>
      if |pos.1 - pp.1| > 5 ∨ |pos.2 - pp.2| > 5 then
        { st1 with prev_position := some pos }
      else st1
  let leftPressed := s.buttons &&& 1 ≠ 0
  let rightPressed := s.buttons &&& 2 ≠ 0
  if (leftPressed ∨ rightPressed) ∧ s.time - st2.prev_click_time > 1 / 10 then
    let button := if rightPressed then "right" else "left"
    let st3 := { st2 with last_click_position := some st2.mouse_position }
    let st4 :=
      match s.elementAt with
      | some info => { st3 with last_click_element := some info }
      | none => st3
    ({ st4 with prev_click_time := s.time },
     some { button := button, position := st4.mouse_position,
            element := s.elementAt, time := s.time })
  else (st2, none)

/-- The loop over a sample sequence, collecting the emitted click events. -/
def track_mouse (st : MouseState) (ss : List MouseSample) :
    MouseState × List ClickEvent :=
  ss.foldl (fun acc s =>
    let r := track_mouse_step acc.1 s
    (r.1, acc.2 ++ r.2.toList)) (st, [])

/-- The initial loop state of `_track_mouse`. -/
def mouseInit : MouseState :=
  { mouse_position := (0, 0), prev_position := none, prev_click_time := 0,
    last_click_position := none, last_click_element := none }

/-! ### JSON timeline file (`_write_to_timeline` and `stop`)

The constructor writes `"[\n"`, each call of `_write_to_timeline` appends
`",\n"` (when `timeline_entry_count > 0`) followed by the `json.dumps`
output for the entry, and `stop()` appends `"\n]\n"`.  The serialized
records are the strings produced by the external `json.dumps`; the claim is
proved for every sequence of records that are well-formed JSON value texts
(`SelfDelimJson` below), which `json.dumps` outputs are. -/

/-- One `_write_to_timeline` call in JSON format, on the pair of the file
content so far and `timeline_entry_count`. -/
def write_to_timeline_json (st : String × Nat) (record : String) : String × Nat :=
  (st.1 ++ (if st.2 > 0 then ",\n" else "") ++ record, st.2 + 1)

/-- The timeline file content after the constructor, a sequence of appended
records, and the closing write of `stop()`. -/
def timeline_after (records : List String) : String :=
  (records.foldl write_to_timeline_json ("[\n", 0)).1 ++ "\n]\n"

/-- The records joined by the `",\n"` separator. -/
def sepJoin : List String → String
  | [] => ""
  | [r] => r
  | r :: rs => r ++ ",\n" ++ sepJoin rs

/-! A recursive-descent JSON reader, used to state "the file parses as a
single valid JSON array".  Value nesting is bounded by an explicit fuel
argument; a file `parsesAsJsonArray` when some fuel suffices. -/

/-- A parsed JSON value. -/
inductive Json where
  | jnull
  | jbool (b : Bool)
  | jnum (text : String)
  | jstr (s : String)
  | jarr (l : List Json)
  | jobj (l : List (String × Json))

/-- JSON insignificant whitespace. -/
def wsChar (c : Char) : Bool :=
  c = ' ' ∨ c = '\n' ∨ c = '\t' ∨ c = '\r'

/-- A hexadecimal digit. -/
def hexDigit (c : Char) : Bool :=
  c.isDigit ∨ ('a' ≤ c ∧ c ≤ 'f') ∨ ('A' ≤ c ∧ c ≤ 'F')

/-- Skip insignificant whitespace. -/
def skipWs : List Char → List Char
  | [] => []
  | c :: t => if wsChar c then skipWs t else c :: t

/-- Read the remainder of a string literal after the opening quote. -/
def parseStringRest : List Char → Option (String × List Char)
  | [] => none
  | '"' :: t => some ("", t)
  | '\\' :: c :: t =>
    let esc : Option Char :=
      if c = '"' then some '"' else if c = '\\' then some '\\'
      else if c = '/' then some '/' else if c = 'b' then some (Char.ofNat 8)
      else if c = 'f' then some (Char.ofNat 12) else if c = 'n' then some '\n'
      else if c = 'r' then some '\r' else if c = 't' then some '\t' else none
    match esc with
    | some ch =>
      (parseStringRest t).map (fun p => (⟨ch :: p.1.data⟩, p.2))
    | none =>
      if c = 'u' then
        match t with
        | h1 :: h2 :: h3 :: h4 :: rest =>
          if hexDigit h1 ∧ hexDigit h2 ∧ hexDigit h3 ∧ hexDigit h4 then
            let v := ((h1.toNat * 16 + h2.toNat) * 16 + h3.toNat) * 16 + h4.toNat
            (parseStringRest rest).map (fun p => (⟨Char.ofNat (v % 55296) :: p.1.data⟩, p.2))
          else none
        | _ => none
      else none
  | c :: t => (parseStringRest t).map (fun p => (⟨c :: p.1.data⟩, p.2))

/-- Read a numeral starting at the current position. -/
def parseNumRest (s : List Char) : Option (String × List Char) :=
  let (sign, s1) : List Char × List Char :=
    match s with
    | '-' :: t => (['-'], t)
    | _ => ([], s)
  let ds := s1.takeWhile Char.isDigit
  if ds.isEmpty then none
  else
    let r1 := s1.dropWhile Char.isDigit
    let (frac, r2) : List Char × List Char :=
      match r1 with
      | '.' :: t =>
        let fs := t.takeWhile Char.isDigit
        if fs.isEmpty then ([], r1) else ('.' :: fs, t.dropWhile Char.isDigit)
      | _ => ([], r1)
    let (expo, r3) : List Char × List Char :=
      match r2 with
      | 'e' :: t => ('e' :: t.takeWhile (fun c => c = '+' ∨ c = '-' ∨ c.isDigit),
                     t.dropWhile (fun c => c = '+' ∨ c = '-' ∨ c.isDigit))
      | 'E' :: t => ('E' :: t.takeWhile (fun c => c = '+' ∨ c = '-' ∨ c.isDigit),
                     t.dropWhile (fun c => c = '+' ∨ c = '-' ∨ c.isDigit))
      | _ => ([], r2)
    some (⟨sign ++ ds ++ frac ++ expo⟩, r3)

mutual

/-- Read one JSON value at the current position (no leading whitespace). -/
def parseValue : Nat → List Char → Option (Json × List Char)
  | 0, _ => none
  | fuel + 1, s =>
    match s with
    | [] => none
    | c :: t =>
      if c = '{' then parseObjBody fuel (skipWs t)
      else if c = '[' then parseArrBody fuel (skipWs t)
      else if c = '"' then (parseStringRest t).map (fun p => (.jstr p.1, p.2))
      else if c = 'n' then
        match t with
        | 'u' :: 'l' :: 'l' :: t2 => some (.jnull, t2)
        | _ => none
      else if c = 't' then
        match t with
        | 'r' :: 'u' :: 'e' :: t2 => some (.jbool true, t2)
        | _ => none
      else if c = 'f' then
        match t with
        | 'a' :: 'l' :: 's' :: 'e' :: t2 => some (.jbool false, t2)
        | _ => none
      else if c = '-' ∨ c.isDigit then
        (parseNumRest (c :: t)).map (fun p => (.jnum p.1, p.2))
      else none

/-- Read an object body after the opening brace and whitespace. -/
def parseObjBody : Nat → List Char → Option (Json × List Char)
  | 0, _ => none
  | fuel + 1, s =>
    match s with
    | [] => none
    | c :: t =>
      if c = '}' then some (.jobj [], t)
      else if c = '"' then
        match parseStringRest t with
        | none => none
        | some (k, r1) =>
          match skipWs r1 with
          | ':' :: r2 =>
            match parseValue fuel (skipWs r2) with
            | none => none
            | some (v, r3) => parseObjMore fuel (skipWs r3) [(k, v)]
          | _ => none
      else none

/-- Read the remaining `, "key": value` object members. -/
def parseObjMore : Nat → List Char → List (String × Json) →
    Option (Json × List Char)
  | 0, _, _ => none
  | fuel + 1, s, acc =>
    match s with
    | [] => none
    | c :: t =>
      if c = '}' then some (.jobj acc.reverse, t)
      else if c = ',' then
        match skipWs t with
        | '"' :: t2 =>
          match parseStringRest t2 with
          | none => none
          | some (k, r1) =>
            match skipWs r1 with
            | ':' :: r2 =>
              match parseValue fuel (skipWs r2) with
              | none => none
              | some (v, r3) => parseObjMore fuel (skipWs r3) ((k, v) :: acc)
            | _ => none
        | _ => none
      else none

/-- Read an array body after the opening bracket and whitespace. -/
def parseArrBody : Nat → List Char → Option (Json × List Char)
  | 0, _ => none
  | fuel + 1, s =>
    match s with
    | [] => none
    | c :: t =>
      if c = ']' then some (.jarr [], t)
      else
        match parseValue fuel (c :: t) with
        | none => none
        | some (v, r) => parseArrMore fuel (skipWs r) [v]

/-- Read the remaining `, value` array elements. -/
def parseArrMore : Nat → List Char → List Json → Option (Json × List Char)
  | 0, _, _ => none
  | fuel + 1, s, acc =>
    match s with
    | [] => none
    | c :: t =>
      if c = ']' then some (.jarr acc.reverse, t)
      else if c = ',' then
        match parseValue fuel (skipWs t) with
        | none => none
        | some (v, r) => parseArrMore fuel (skipWs r) (v :: acc)
      else none

end

/-- The file text parses as a single JSON array of `n` elements, up to
surrounding whitespace. -/
def parsesAsJsonArray (file : String) (n : Nat) : Prop :=
  ∃ fuel vs r, parseValue fuel (skipWs file.data) = some (.jarr vs, r) ∧
    skipWs r = [] ∧ vs.length = n

/-- A record string is a complete JSON value text: some value such that the
reader consumes exactly the record and leaves any continuation untouched,
for every sufficient fuel.  The `json.dumps` outputs appended to the
timeline (always `{...}` object texts) have this property. -/
def SelfDelimJson (record : String) : Prop :=
  ∃ v, ∀ fuel rest, record.length ≤ fuel →
    parseValue fuel (record.data ++ rest) = some (v, rest)

/-! ## Claim theorems -/

/-- C3 (corrected): for `history_size ≥ 1`, after any sequence of
`_add_event` calls the history is exactly the most recent `history_size`
events in arrival order, and never exceeds the capacity.  (For
`history_size = 0` the Python slice `ui_events[-0:]` keeps everything, see
the counterexample.) -/
theorem runHistory_keeps_last {α : Type} (n : Nat) (hn : 1 ≤ n) (es : List α) :
    runHistory n es = es.drop (es.length - n) ∧ (runHistory n es).length ≤ n := by
  refine ⟨runHistory_eq_drop hn es, ?_⟩
  rw [runHistory_eq_drop hn es]
  simp only [List.length_drop]
  omega

/-- Witness: capacity 2 with three inserted events keeps the last two. -/
theorem runHistory_keeps_last_witness :
    runHistory 2 [10, 20, 30] = [20, 30] ∧ (runHistory 2 [10, 20, 30]).length ≤ 2 := by
  have h := runHistory_keeps_last 2 (by decide) [10, 20, 30]
  exact ⟨by rw [h.1]; rfl, h.2⟩

/-- C3 counterexample: with `history_size = 0` the claimed capacity bound
fails after one insertion, because Python's `l[-0:]` is the whole list. -/
theorem runHistory_capacity_zero_counterexample :
    runHistory 0 [(5 : Nat)] = [5] ∧ ¬(runHistory 0 [(5 : Nat)]).length ≤ 0 := by
  decide

/-- C7 (corrected): element identity is deterministic — recomputing
`object_id` on unchanged role, title, width, height and child count yields
the same value — and lies below `2^64`.  (It is not injective, see the
collision counterexample.) -/
theorem object_id_deterministic (r1 t1 : String) (w1 h1 c1 : Nat)
    (r2 t2 : String) (w2 h2 c2 : Nat) (hr : r1 = r2) (ht : t1 = t2)
    (hw : w1 = w2) (hh : h1 = h2) (hc : c1 = c2) :
    object_id r1 t1 w1 h1 c1 = object_id r2 t2 w2 h2 c2 ∧
      object_id r1 t1 w1 h1 c1 < 2 ^ 64 := by
  subst hr; subst ht; subst hw; subst hh; subst hc
  exact ⟨rfl, Nat.mod_lt _ (by norm_num)⟩

/-- Witness for the determinism theorem at a concrete element. -/
theorem object_id_deterministic_witness :
    object_id "AXButton" "OK" 10 20 3 = object_id "AXButton" "OK" 10 20 3 ∧
      object_id "AXButton" "OK" 10 20 3 < 2 ^ 64 :=
  object_id_deterministic "AXButton" "OK" 10 20 3 "AXButton" "OK" 10 20 3
    rfl rfl rfl rfl rfl

/-- C7 counterexample: two elements differing in role and title collide,
because the hash input is the unseparated concatenation of the fields —
`role="ab", title="c"` and `role="a", title="bc"` produce the same
`hash_input` and hence the same identity. -/
theorem object_id_collision_counterexample :
    (("ab", "c") ≠ (("a", "bc") : String × String)) ∧
      object_id "ab" "c" 10 20 3 = object_id "a" "bc" 10 20 3 := by
  refine ⟨by decide, ?_⟩
  have h : hashInput "ab" "c" 10 20 3 = hashInput "a" "bc" 10 20 3 := by decide
  unfold object_id
  rw [h]

/-! Dictionary-merge lemmas used for `UIEvent.to_dict`. -/

theorem pyLookup_append (a b : List (String × PyVal)) (k : String) :
    pyLookup (a ++ b) k =
      match pyLookup a k with
      | some v => some v
      | none => pyLookup b k := by
  induction a with
  | nil => simp [pyLookup]
  | cons kv rest ih =>
    by_cases h : kv.1 = k
    · simp [pyLookup, h]
    · simp [pyLookup, h, ih]

theorem pyLookup_pySet_eq (l : List (String × PyVal)) (k : String) (v : PyVal) :
    pyLookup (pySet l k v) k = some v := by
  induction l with
  | nil => simp [pySet, pyLookup]
  | cons kv rest ih =>
    by_cases h : kv.1 = k
    · simp [pySet, h, pyLookup]
    · simp [pySet, h, pyLookup, ih]

theorem pyLookup_pySet_ne (l : List (String × PyVal)) (k : String) (v : PyVal)
    (k2 : String) (h : k2 ≠ k) : pyLookup (pySet l k v) k2 = pyLookup l k2 := by
  induction l with
  | nil => simp [pySet, pyLookup, Ne.symm h]
  | cons kv rest ih =>
    by_cases hk : kv.1 = k
    · subst hk
      simp [pySet, pyLookup, Ne.symm h, ih]
    · by_cases hk2 : kv.1 = k2
      · simp [pySet, hk, pyLookup, hk2, h]
      · simp [pySet, hk, pyLookup, hk2, ih, h]

theorem pyLookup_foldl_set (l : List (String × PyVal))
    (init : List (String × PyVal)) (k : String) :
    pyLookup (l.foldl (fun d kv => pySet d kv.1 kv.2) init) k =
      match pyLookup l.reverse k with
      | some v => some v
      | none => pyLookup init k := by
  induction l generalizing init with
  | nil => simp [pyLookup]
  | cons kv rest ih =>
    simp only [List.foldl_cons, ih, List.reverse_cons, pyLookup_append]
    cases hfind : pyLookup rest.reverse k with
    | some v => rfl
    | none =>
      by_cases hk : kv.1 = k
      · subst hk
        simp [pyLookup, pyLookup_pySet_eq]
      · simp [pyLookup, hk, pyLookup_pySet_ne _ _ _ _ (Ne.symm hk)]

theorem pyLookup_eq_none_of_notMem (l : List (String × PyVal)) (k : String)
    (h : k ∉ l.map Prod.fst) : pyLookup l k = none := by
  induction l with
  | nil => rfl
  | cons kv rest ih =>
    simp only [List.map_cons, List.mem_cons] at h
    push_neg at h
    simp [pyLookup, Ne.symm h.1, ih h.2]

theorem pyLookup_reverse_of_nodupKeys (l : List (String × PyVal)) (k : String)
    (h : (l.map Prod.fst).Nodup) : pyLookup l.reverse k = pyLookup l k := by
  induction l with
  | nil => rfl
  | cons kv rest ih =>
    simp only [List.map_cons, List.nodup_cons] at h
    obtain ⟨hnotin, hnd⟩ := h
    rw [List.reverse_cons, pyLookup_append, ih hnd]
    by_cases hk : kv.1 = k
    · subst hk
      rw [pyLookup_eq_none_of_notMem rest kv.1 hnotin]
      simp [pyLookup]
    · cases hfind : pyLookup rest k with
      | some v => simp [pyLookup, hk, hfind]
      | none => simp [pyLookup, hk, hfind]

/-- C10 (confirmed): `UIEvent.to_dict` stores the event type under `type`
and the timestamp under `timestamp`, merges every details binding at the
top level, and a details binding named `type` or `timestamp` silently
overwrites the event's own field in the serialized record. -/
theorem to_dict_merge (e : UIEvent) (hnd : (e.details.map Prod.fst).Nodup) :
    (∀ v, pyLookup e.details "type" = some v →
      pyLookup e.to_dict "type" = some v) ∧
    (pyLookup e.details "type" = none →
      pyLookup e.to_dict "type" = some (.pstr e.event_type)) ∧
    (∀ v, pyLookup e.details "timestamp" = some v →
      pyLookup e.to_dict "timestamp" = some v) ∧
    (pyLookup e.details "timestamp" = none →
      pyLookup e.to_dict "timestamp" = some (.pnum e.timestamp)) ∧
    (∀ k v, pyLookup e.details k = some v → pyLookup e.to_dict k = some v) := by
  have base : ∀ k, pyLookup e.to_dict k =
      match pyLookup e.details k with
      | some v => some v
      | none => pyLookup [("type", PyVal.pstr e.event_type),
                          ("timestamp", PyVal.pnum e.timestamp)] k := by
    intro k
    rw [UIEvent.to_dict, pyLookup_foldl_set, pyLookup_reverse_of_nodupKeys _ _ hnd]
  have fromDetails : ∀ k v, pyLookup e.details k = some v →
      pyLookup e.to_dict k = some v := by
    intro k v hv
    rw [base k, hv]
  refine ⟨fun v hv => fromDetails _ v hv, ?_, fun v hv => fromDetails _ v hv, ?_,
    fromDetails⟩
  · intro hn
    rw [base, hn]
    rfl
  · intro hn
    rw [base, hn]
    rfl

/-- Witness: a details binding `type` overwrites the event's type in the
serialized dictionary. -/
theorem to_dict_merge_witness :
    pyLookup (UIEvent.to_dict ⟨"click", 5, [("type", PyVal.pstr "fake")]⟩)
      "type" = some (PyVal.pstr "fake") :=
  (to_dict_merge ⟨"click", 5, [("type", PyVal.pstr "fake")]⟩ (by simp)).1
    (PyVal.pstr "fake") rfl

/-! Callback dispatch. -/

theorem runCallbacks_eq_map (cbs : List Callback) (e : UIEvent) :
    runCallbacks cbs e = cbs.map (fun cb => (cb.id, cb.run e)) := by
  induction cbs with
  | nil => rfl
  | cons cb rest ih => simp [runCallbacks, ih]

/-- C9 (confirmed): dispatch invokes exactly the callbacks registered for
the event's type, in registration order; a raising callback's outcome is
contained in its own trace entry and the remaining callbacks still run;
registrations for other event types are irrelevant to the result. -/
theorem notify_callbacks_spec (reg : List (String × List Callback)) (e : UIEvent) :
    (∀ cbs, registryGet reg e.event_type = some cbs →
      notify_callbacks reg e = cbs.map (fun cb => (cb.id, cb.run e))) ∧
    (registryGet reg e.event_type = none → notify_callbacks reg e = []) ∧
    (∀ reg2, registryGet reg2 e.event_type = registryGet reg e.event_type →
      notify_callbacks reg2 e = notify_callbacks reg e) := by
  refine ⟨fun cbs hcbs => ?_, fun hn => ?_, fun reg2 hsame => ?_⟩
  · rw [notify_callbacks, hcbs, Option.getD_some, runCallbacks_eq_map]
  · rw [notify_callbacks, hn, Option.getD_none]
    rfl
  · rw [notify_callbacks, notify_callbacks, hsame]

/-- Witness: two callbacks registered for `click`, the first raising; the
trace has both, in order, with the failure contained. -/
theorem notify_callbacks_spec_witness :
    notify_callbacks
      [("click", [⟨1, fun _ => some PyExn.valueError⟩, ⟨2, fun _ => none⟩]),
       ("key_press", [⟨3, fun _ => none⟩])]
      ⟨"click", 0, []⟩ =
      [(1, some PyExn.valueError), (2, none)] := by
  rw [(notify_callbacks_spec
    [("click", [⟨1, fun _ => some PyExn.valueError⟩, ⟨2, fun _ => none⟩]),
     ("key_press", [⟨3, fun _ => none⟩])] ⟨"click", 0, []⟩).1
    [⟨1, fun _ => some PyExn.valueError⟩, ⟨2, fun _ => none⟩] rfl]
  rfl

/-! Frontmost-app resolver: method tags and the chain behaviour. -/

theorem strategyNSWorkspace_method (o : ResolveObs) (r : AppRec)
    (h : strategyNSWorkspace o = some r) : r.method = "NSWorkspace" := by
  unfold strategyNSWorkspace at h
  cases hns : o.nsworkspace with
  | none => rw [hns] at h; simp at h
  | some a => rw [hns] at h; simp at h; rw [← h]

theorem strategyAppleScript_method (o : ResolveObs) (r : AppRec)
    (h : strategyAppleScript o = some r) : r.method = "AppleScript" := by
  unfold strategyAppleScript at h
  repeat' split at h
  all_goals simp_all
  rw [← h]

theorem strategyLsappinfo_method (o : ResolveObs) (r : AppRec)
    (h : strategyLsappinfo o = some r) : r.method = "lsappinfo" := by
  unfold strategyLsappinfo at h
  repeat' split at h
  all_goals try exact Option.noConfusion h
  all_goals injection h with h
  all_goals subst h
  all_goals rfl

theorem strategyPs_method (o : ResolveObs) (r : AppRec)
    (h : strategyPs o = some r) : r.method = "ps" := by
  unfold strategyPs at h
  dsimp only at h
  repeat' split at h
  all_goals try exact Option.noConfusion h
  all_goals injection h with h
  all_goals subst h
  all_goals rfl

/-- C2 (corrected): the resolver tries NSWorkspace, AppleScript, lsappinfo
and ps in that order, short-circuits on the first success, and returns that
strategy's record tagged with its `method`; when every strategy fails it
falls back to the cached pid — but only when that pid is truthy (nonzero),
because of the `if self.current_app_pid:` test — and it returns `None`
exactly when every strategy fails and the cached pid is unset or zero. -/
theorem get_frontmost_app_info_spec (o : ResolveObs) (cached : Option Int) :
    (∀ r, strategyNSWorkspace o = some r →
      get_frontmost_app_info o cached = some r ∧ r.method = "NSWorkspace") ∧
    (strategyNSWorkspace o = none → ∀ r, strategyAppleScript o = some r →
      get_frontmost_app_info o cached = some r ∧ r.method = "AppleScript") ∧
    (strategyNSWorkspace o = none → strategyAppleScript o = none →
      ∀ r, strategyLsappinfo o = some r →
      get_frontmost_app_info o cached = some r ∧ r.method = "lsappinfo") ∧
    (strategyNSWorkspace o = none → strategyAppleScript o = none →
      strategyLsappinfo o = none → ∀ r, strategyPs o = some r →
      get_frontmost_app_info o cached = some r ∧ r.method = "ps") ∧
    (strategyNSWorkspace o = none → strategyAppleScript o = none →
      strategyLsappinfo o = none → strategyPs o = none →
      ∀ p, cached = some p → p ≠ 0 →
      get_frontmost_app_info o cached =
        some ⟨some "Unknown App", p, "", "fallback"⟩) ∧
    (get_frontmost_app_info o cached = none ↔
      strategyNSWorkspace o = none ∧ strategyAppleScript o = none ∧
      strategyLsappinfo o = none ∧ strategyPs o = none ∧
      (cached = none ∨ cached = some 0)) := by
  refine ⟨?_, ?_, ?_, ?_, ?_, ?_⟩
  · intro r h
    exact ⟨by simp [get_frontmost_app_info, h], strategyNSWorkspace_method o r h⟩
  · intro h1 r h
    exact ⟨by simp [get_frontmost_app_info, h1, h],
      strategyAppleScript_method o r h⟩
  · intro h1 h2 r h
    exact ⟨by simp [get_frontmost_app_info, h1, h2, h],
      strategyLsappinfo_method o r h⟩
  · intro h1 h2 h3 r h
    exact ⟨by simp [get_frontmost_app_info, h1, h2, h3, h],
      strategyPs_method o r h⟩
  · intro h1 h2 h3 h4 p hp hp0
    simp [get_frontmost_app_info, h1, h2, h3, h4, hp, hp0]
  · cases hns : strategyNSWorkspace o with
    | some r => simp [get_frontmost_app_info, hns]
    | none =>
      cases has : strategyAppleScript o with
      | some r => simp [get_frontmost_app_info, hns, has]
      | none =>
        cases hls : strategyLsappinfo o with
        | some r => simp [get_frontmost_app_info, hns, has, hls]
        | none =>
          cases hps : strategyPs o with
          | some r => simp [get_frontmost_app_info, hns, has, hls, hps]
          | none =>
            cases cached with
            | none => simp [get_frontmost_app_info, hns, has, hls, hps]
            | some p =>
              by_cases hp : p = 0 <;>
                simp [get_frontmost_app_info, hns, has, hls, hps, hp]

/-- The observation of the spec's resolver example: the workspace and
scripting-bridge strategies fail, `lsappinfo` reports `Foo` with pid 42. -/
def obsLs : ResolveObs :=
  { nsworkspace := none, applescriptResult := none,
    lsFront := some "nonsense ASN:0x0-0x2a2a2 more",
    lsInfo := some "\"display name\"=\"Foo\"\n\"pid\"=42",
    psOut := none }

/-- Witness: with strategies 1 and 2 failing and strategy 3 reporting
`Foo`/42, the resolver returns exactly that record tagged `lsappinfo`. -/
theorem get_frontmost_app_info_spec_witness :
    get_frontmost_app_info obsLs none =
      some ⟨some "Foo", 42, "", "lsappinfo"⟩ :=
  ((get_frontmost_app_info_spec obsLs none).2.2.1 rfl rfl _ (by decide)).1

/-- An observation where every strategy fails. -/
def obsFailAll : ResolveObs := ⟨none, none, none, none, none⟩

/-- C2 counterexample: with every strategy failing and the cached pid set
to `0`, the resolver returns `None` instead of the claimed degraded
`fallback` record (Python truthiness of `current_app_pid`); a nonzero
cached pid does produce the fallback record. -/
theorem get_frontmost_app_info_zero_pid_counterexample :
    get_frontmost_app_info obsFailAll (some 0) = none ∧
      get_frontmost_app_info obsFailAll (some 1) =
        some ⟨some "Unknown App", 1, "", "fallback"⟩ := by
  exact ⟨rfl, rfl⟩

/-! UI-state tracker: axis lemmas. -/

theorem countType_append (t : String) (l1 l2 : List UEvent) :
    countType t (l1 ++ l2) = countType t l1 + countType t l2 := by
  simp [countType, List.filter_append]

theorem countType_toList_le_one (x : Option UEvent) (t : String) :
    countType t x.toList ≤ 1 := by
  cases x with
  | none => simp [countType]
  | some e =>
    simp only [Option.toList_some, countType, List.filter]
    split <;> simp

theorem countType_toList_eq_zero (x : Option UEvent) (tx t : String)
    (hx : ∀ e, x = some e → evType e = tx) (hne : tx ≠ t) :
    countType t x.toList = 0 := by
  cases x with
  | none => simp [countType]
  | some e =>
    have he := hx e rfl
    simp only [Option.toList_some, countType, List.filter]
    rw [he]
    simp [hne]

theorem appStep_evType (s : UIState) (fa : AppRec) (o : UIObs) (e : UEvent)
    (h : (appStep s fa o).2 = some e) : evType e = "app_change" := by
  unfold appStep at h
  repeat' split at h
  all_goals try exact Option.noConfusion h
  all_goals injection h with h
  all_goals subst h
  all_goals rfl

theorem winStep_evType (s : UIState) (o : UIObs) (e : UEvent)
    (h : (winStep s o).2 = some e) : evType e = "window_change" := by
  unfold winStep at h
  repeat' split at h
  all_goals try exact Option.noConfusion h
  all_goals injection h with h
  all_goals subst h
  all_goals rfl

theorem focStep_evType (s : UIState) (o : UIObs) (e : UEvent)
    (h : (focStep s o).2 = some e) : evType e = "focus_change" := by
  unfold focStep at h
  repeat' split at h
  all_goals try exact Option.noConfusion h
  all_goals injection h with h
  all_goals subst h
  all_goals rfl

theorem appStep_pid (s : UIState) (fa : AppRec) (o : UIObs) :
    ((appStep s fa o).1).current_app_pid = some fa.pid := by
  unfold appStep
  by_cases h : s.current_app_pid = some fa.pid
  · simp [h]
  · by_cases h2 : o.appElemOk <;> simp [h, h2]

theorem appStep_window (s : UIState) (fa : AppRec) (o : UIObs) :
    ((appStep s fa o).1).current_window = s.current_window := by
  unfold appStep
  repeat' split
  all_goals rfl

theorem appStep_element (s : UIState) (fa : AppRec) (o : UIObs) :
    ((appStep s fa o).1).current_element = s.current_element := by
  unfold appStep
  repeat' split
  all_goals rfl

theorem winStep_app (s : UIState) (o : UIObs) :
    ((winStep s o).1).current_app = s.current_app := by
  unfold winStep
  repeat' split
  all_goals rfl

theorem winStep_element (s : UIState) (o : UIObs) :
    ((winStep s o).1).current_element = s.current_element := by
  unfold winStep
  repeat' split
  all_goals rfl

theorem focStep_app (s : UIState) (o : UIObs) :
    ((focStep s o).1).current_app = s.current_app := by
  unfold focStep
  repeat' split
  all_goals rfl

theorem focStep_window (s : UIState) (o : UIObs) :
    ((focStep s o).1).current_window = s.current_window := by
  unfold focStep
  repeat' split
  all_goals rfl

theorem appStep_same (s : UIState) (fa : AppRec) (o : UIObs)
    (h : s.current_app_pid = some fa.pid) : appStep s fa o = (s, none) := by
  unfold appStep
  simp [h]

theorem effWindows_congr (s t : UIState) (o : UIObs)
    (h : s.current_app = t.current_app) : effWindows s o = effWindows t o := by
  unfold effWindows
  rw [h]

theorem winStep_window_id (s : UIState) (o : UIObs) (w : WinObs) (ws : List WinObs)
    (hw : effWindows s o = w :: ws) :
    ((winStep s o).1).current_window.map WinObs.id = some w.id := by
  unfold winStep
  rw [hw]
  by_cases hc : s.current_window.map WinObs.id ≠ some w.id
  · simp [hc]
  · push_neg at hc
    simp [hc]

theorem winStep_window_none (s : UIState) (o : UIObs) (wn : String)
    (rest : List String) (hw : effWindows s o = [])
    (hn : o.asWindowNames = wn :: rest) :
    ((winStep s o).1).current_window = none := by
  unfold winStep
  rw [hw, hn]

theorem winStep_silent_ax (s : UIState) (o : UIObs) (w : WinObs) (ws : List WinObs)
    (hw : effWindows s o = w :: ws)
    (hid : s.current_window.map WinObs.id = some w.id) :
    winStep s o = (s, none) := by
  unfold winStep
  rw [hw]
  simp [hid]

theorem winStep_silent_empty (s : UIState) (o : UIObs)
    (hw : effWindows s o = []) (hn : o.asWindowNames = []) :
    winStep s o = (s, none) := by
  unfold winStep
  rw [hw, hn]

theorem winStep_as_emit (s : UIState) (o : UIObs) (wn : String)
    (rest : List String) (hw : effWindows s o = [])
    (hn : o.asWindowNames = wn :: rest) (hcw : s.current_window = none) :
    winStep s o = ({ s with current_window := none },
      some (.window_change "Unknown" wn "AppleScript")) := by
  unfold winStep
  rw [hw, hn, hcw]
  rfl

theorem focStep_element_set (s : UIState) (o : UIObs) (f : FocusObs)
    (ha : s.current_app.isSome = true) (hf : o.focused = some f) :
    ((focStep s o).1).current_element = some f.id := by
  unfold focStep
  simp only [ha, if_true, hf]
  by_cases hc : s.current_element ≠ some f.id
  · simp [hc]
  · push_neg at hc
    simp [hc]

theorem focStep_silent (s : UIState) (o : UIObs)
    (h : s.current_app.isSome = true → ∀ f, o.focused = some f →
      s.current_element = some f.id) :
    focStep s o = (s, none) := by
  unfold focStep
  by_cases ha : s.current_app.isSome
  · simp only [ha, if_true]
    cases hf : o.focused with
    | none => rfl
    | some f =>
      have he := h ha f hf
      simp [he]
  · simp only [Bool.not_eq_true] at ha
    simp [ha]

/-- C1 (corrected): on one observation each axis emits at most one
transition event; on a second, identical observation the app and focus axes
and the accessibility window path emit nothing, but the AppleScript window
fallback (no accessibility windows, a nonempty scripted window-name list)
emits its `window_change` again on every observation. -/
theorem update_ui_state_idem (s : UIState) (o : UIObs) (s1 s2 : UIState)
    (e1 e2 : List UEvent) (h1 : update_ui_state s o = (s1, e1))
    (h2 : update_ui_state s1 o = (s2, e2)) :
    (countType "app_change" e1 ≤ 1 ∧ countType "window_change" e1 ≤ 1 ∧
      countType "focus_change" e1 ≤ 1) ∧
    (o.front = none → e2 = []) ∧
    (∀ fa, o.front = some fa → effWindows s1 o ≠ [] → e2 = []) ∧
    (∀ fa, o.front = some fa → effWindows s1 o = [] → o.asWindowNames = [] →
      e2 = []) ∧
    (∀ fa wn rest, o.front = some fa → effWindows s1 o = [] →
      o.asWindowNames = wn :: rest →
      e2 = [.window_change "Unknown" wn "AppleScript"]) := by
  cases hfront : o.front with
  | none =>
    simp only [update_ui_state, hfront] at h1 h2
    injection h1 with hA hB
    injection h2 with hC hD
    subst hA; subst hB; subst hC; subst hD
    refine ⟨⟨by simp [countType], by simp [countType], by simp [countType]⟩,
      fun _ => rfl, fun fa hfa => absurd hfa (by simp), fun fa hfa => absurd hfa (by simp),
      fun fa wn rest hfa => absurd hfa (by simp)⟩
  | some fa =>
    simp only [update_ui_state, hfront] at h1 h2
    injection h1 with hA hB
    injection h2 with hC hD
    subst hA; subst hB; subst hC; subst hD
    constructor
    · -- per-axis counts on the first observation
      refine ⟨?_, ?_, ?_⟩ <;>
        rw [countType_append, countType_append]
      · have hw0 := countType_toList_eq_zero _ _ "app_change"
          (winStep_evType (appStep s fa o).1 o) (by decide)
        have hf0 := countType_toList_eq_zero _ _ "app_change"
          (focStep_evType (winStep (appStep s fa o).1 o).1 o) (by decide)
        have ha1 := countType_toList_le_one (appStep s fa o).2 "app_change"
        omega
      · have ha0 := countType_toList_eq_zero _ _ "window_change"
          (appStep_evType s fa o) (by decide)
        have hf0 := countType_toList_eq_zero _ _ "window_change"
          (focStep_evType (winStep (appStep s fa o).1 o).1 o) (by decide)
        have hw1 := countType_toList_le_one (winStep (appStep s fa o).1 o).2
          "window_change"
        omega
      · have ha0 := countType_toList_eq_zero _ _ "focus_change"
          (appStep_evType s fa o) (by decide)
        have hw0 := countType_toList_eq_zero _ _ "focus_change"
          (winStep_evType (appStep s fa o).1 o) (by decide)
        have hf1 := countType_toList_le_one
          (focStep (winStep (appStep s fa o).1 o).1 o).2 "focus_change"
        omega
    · -- the second, identical observation
      -- abbreviations for the first update's intermediate states
      have hpid1 : ((focStep (winStep (appStep s fa o).1 o).1 o).1).current_app_pid =
          some fa.pid := by
        have p1 := appStep_pid s fa o
        unfold focStep winStep
        repeat' split
        all_goals simpa using p1
      have happ1 : ((focStep (winStep (appStep s fa o).1 o).1 o).1).current_app =
          ((appStep s fa o).1).current_app := by
        rw [focStep_app, winStep_app]
      have hsame : appStep (focStep (winStep (appStep s fa o).1 o).1 o).1 fa o =
          ((focStep (winStep (appStep s fa o).1 o).1 o).1, none) :=
        appStep_same _ fa o hpid1
      have hstab : ((focStep (winStep (appStep s fa o).1 o).1 o).1).current_app.isSome = true →
          ∀ f, o.focused = some f →
          ((focStep (winStep (appStep s fa o).1 o).1 o).1).current_element = some f.id := by
        intro hs f hf
        rw [focStep_app] at hs
        exact focStep_element_set (winStep (appStep s fa o).1 o).1 o f hs hf
      refine ⟨fun hff => Option.noConfusion hff, ?_, ?_, ?_⟩
      · -- accessibility windows present: silent
        intro fa2 hfa2 hne
        injection hfa2 with hfa2
        subst hfa2
        rw [hsame]
        simp only [Option.toList_none, List.nil_append]
        cases hw : effWindows (focStep (winStep (appStep s fa o).1 o).1 o).1 o with
        | nil => exact absurd hw hne
        | cons w ws =>
          have hid : ((focStep (winStep (appStep s fa o).1 o).1 o).1).current_window.map
              WinObs.id = some w.id := by
            rw [focStep_window]
            apply winStep_window_id (appStep s fa o).1 o w ws
            rw [effWindows_congr (appStep s fa o).1
              (focStep (winStep (appStep s fa o).1 o).1 o).1 o]
            · exact hw
            · rw [happ1]
          have hws := winStep_silent_ax _ o w ws hw hid
          rw [hws]
          simp only [Option.toList_none, List.nil_append]
          rw [focStep_silent _ o hstab]
          rfl
      · -- AppleScript path with no names: silent
        intro fa2 hfa2 hw hn
        injection hfa2 with hfa2
        subst hfa2
        rw [hsame]
        simp only [Option.toList_none, List.nil_append]
        rw [winStep_silent_empty _ o hw hn]
        simp only [Option.toList_none, List.nil_append]
        rw [focStep_silent _ o hstab]
        rfl
      · -- AppleScript path with names: one window_change again
        intro fa2 wn rest hfa2 hw hn
        injection hfa2 with hfa2
        subst hfa2
        rw [hsame]
        simp only [Option.toList_none, List.nil_append]
        have hcw : ((focStep (winStep (appStep s fa o).1 o).1 o).1).current_window = none := by
          rw [focStep_window]
          apply winStep_window_none (appStep s fa o).1 o wn rest
          · rw [effWindows_congr (appStep s fa o).1
              (focStep (winStep (appStep s fa o).1 o).1 o).1 o]
            · exact hw
            · rw [happ1]
          · exact hn
        rw [winStep_as_emit _ o wn rest hw hn hcw]
        simp only [Option.toList_some]
        have hstab2 : ({ (focStep (winStep (appStep s fa o).1 o).1 o).1 with
            current_window := none } : UIState).current_app.isSome = true →
            ∀ f, o.focused = some f →
            ({ (focStep (winStep (appStep s fa o).1 o).1 o).1 with
              current_window := none } : UIState).current_element = some f.id := by
          intro hs f hf
          exact hstab hs f hf
        rw [focStep_silent _ o hstab2]
        rfl

/-- The tracker's initial state: everything unknown. -/
def uiS0 : UIState := ⟨none, none, none, none⟩

/-- An observation that resolves the frontmost app but yields windows only
through the AppleScript fallback. -/
def uiObsAS : UIObs :=
  { front := some ⟨some "TextEdit", 42, "", "NSWorkspace"⟩, appElemOk := true,
    appTitle := .val "TextEdit", axWindows := [], asWindowNames := ["Untitled"],
    focused := none }

/-- C1 counterexample: on the second of two identical observations the
AppleScript window fallback emits a `window_change` again — the claimed
zero-events idempotence fails. -/
theorem update_ui_state_applescript_counterexample :
    (update_ui_state (update_ui_state uiS0 uiObsAS).1 uiObsAS).2 =
      [.window_change "Unknown" "Untitled" "AppleScript"] := by
  decide

/-- An observation with accessibility windows and a focused element. -/
def uiObsAX : UIObs :=
  { front := some ⟨some "A", 1, "", "NSWorkspace"⟩, appElemOk := true,
    appTitle := .val "A", axWindows := [⟨5, .val "Win"⟩], asWindowNames := [],
    focused := some ⟨7, "payload"⟩ }

/-- Witness: on the accessibility path, at most one event per axis on the
first observation and zero events on the second, identical one. -/
theorem update_ui_state_idem_witness :
    countType "app_change" (update_ui_state uiS0 uiObsAX).2 ≤ 1 ∧
    countType "window_change" (update_ui_state uiS0 uiObsAX).2 ≤ 1 ∧
    countType "focus_change" (update_ui_state uiS0 uiObsAX).2 ≤ 1 ∧
    (update_ui_state (update_ui_state uiS0 uiObsAX).1 uiObsAX).2 = [] := by
  have h := update_ui_state_idem uiS0 uiObsAX
    (update_ui_state uiS0 uiObsAX).1
    (update_ui_state (update_ui_state uiS0 uiObsAX).1 uiObsAX).1
    (update_ui_state uiS0 uiObsAX).2
    (update_ui_state (update_ui_state uiS0 uiObsAX).1 uiObsAX).2 rfl rfl
  exact ⟨h.1.1, h.1.2.1, h.1.2.2, h.2.2.1 _ rfl (by decide)⟩

/-! Event sink: totality and the screenshot side effect. -/

/-- The `position` entry of an event's details is a dict or absent. -/
def positionDictish (e : UIEvent) : Bool :=
  match pyLookup e.details "position" with
  | none => true
  | some (.pdict _) => true
  | some _ => false

/-- Whether an `Except` result is a success. -/
def isOkE {α : Type} (x : Except PyExn α) : Bool :=
  match x with
  | .ok _ => true
  | .error _ => false

theorem exceptBind_ok {α β : Type} (a : α) (f : α → Except PyExn β) :
    (Except.ok a >>= f) = f a := rfl

/-- The details of the event as persisted by the sink, when it succeeds. -/
def add_event_details (cfg : MonitorCfg) (reg : List (String × List Callback))
    (st : SinkState) (e : UIEvent) (obs : SinkObs) :
    Option (List (String × PyVal)) :=
  match add_event cfg reg st e obs with
  | .ok r => some r.2.1.details
  | .error _ => none

/-- C6 (corrected): the sink never raises provided that, when the event is
a `click` and screenshots are enabled, the `position` details entry is a
dict (or absent); file-write, timeline and callback failures are all
contained.  (Any other `position` shape makes `pos.get(...)` raise an
uncontained `AttributeError`, see the counterexample.) -/
theorem add_event_total (cfg : MonitorCfg) (reg : List (String × List Callback))
    (st : SinkState) (e : UIEvent) (obs : SinkObs)
    (h : e.event_type = "click" → cfg.take_screenshots = true →
      positionDictish e = true) :
    isOkE (add_event cfg reg st e obs) = true := by
  unfold add_event
  by_cases hc : e.event_type = "click" ∧ cfg.take_screenshots = true
  · have hd := h hc.1 hc.2
    unfold positionDictish at hd
    rw [if_pos hc]
    cases hp : pyLookup e.details "position" with
    | none => rfl
    | some v =>
      rw [hp] at hd
      cases v with
      | pdict l => rfl
      | pnone => exact Bool.noConfusion hd
      | pbool b => exact Bool.noConfusion hd
      | pint n => exact Bool.noConfusion hd
      | pnum q => exact Bool.noConfusion hd
      | pstr s2 => exact Bool.noConfusion hd
      | plist l => exact Bool.noConfusion hd
  · rw [if_neg hc]
    rfl

/-- A sink configuration with screenshots enabled but no directory. -/
def cfgNoDir : MonitorCfg :=
  { history_size := 10, take_screenshots := true, screenshot_dir := none,
    output_file := none, timeline_file := none, timeline_format := "json" }

/-- An empty initial sink state. -/
def stEmpty : SinkState := ⟨[], 0, "[\n", 0⟩

/-- A benign observation: every OS call succeeds. -/
def obsOk : SinkObs :=
  { osImageOk := true, osWriteOk := true, osTimestamp := "20250101_000000",
    outWriteErr := false, timelineWriteErr := false,
    timelineRecord := "\x7b\x7d" }

/-- A click event as the mouse monitor emits it for a resolved element:
float CG coordinates in the position dict and the `ElementInfo` dictionary
of the element under the pointer. -/
def evClick : UIEvent :=
  ⟨"click", 0, [("button", .pstr "left"),
    ("position", .pdict [("x", .pnum (512 + 1 / 2)), ("y", .pnum 384)]),
    ("element", .pdict [("role", .pstr "AXButton"), ("title", .pstr "OK"),
      ("enabled", .pbool true)])]⟩

/-- Witness: a well-formed click event is accepted without an exception. -/
theorem add_event_total_witness :
    isOkE (add_event cfgNoDir [] stEmpty evClick obsOk) = true :=
  add_event_total cfgNoDir [] stEmpty evClick obsOk (fun _ _ => rfl)

/-- A click event whose `position` entry is a string. -/
def evBadClick : UIEvent := ⟨"click", 0, [("position", .pstr "oops")]⟩

/-- C6 counterexample: a click event with a non-dict `position` makes the
sink raise `AttributeError` to its caller when screenshots are enabled. -/
theorem add_event_raises_counterexample :
    add_event cfgNoDir [] stEmpty evBadClick obsOk =
      .error .attributeError := by
  rfl

/-- C5 (corrected): for a click event whose position dict carries any
`int()`-convertible x/y values — the floats every real click event holds,
or plain integers — and with no prior `screenshot` binding: when
screenshots are enabled and the capture primitive succeeds (directory
configured, display image and PNG write OK), the stored event's
`details.screenshot` is a non-empty path; when screenshots are disabled the
key is absent.  (When capture fails the key is also absent even with
screenshots enabled, see the counterexample.) -/
theorem add_event_screenshot (cfg : MonitorCfg)
    (reg : List (String × List Callback)) (st : SinkState) (e : UIEvent)
    (obs : SinkObs) (vx vy : PyVal) (mx myy : Int) (d : String)
    (htype : e.event_type = "click")
    (hpos : pyLookup e.details "position" =
      some (.pdict [("x", vx), ("y", vy)]))
    (hvx : pyToInt vx = some mx) (hvy : pyToInt vy = some myy)
    (hns : pyLookup e.details "screenshot" = none) :
    (cfg.take_screenshots = true → cfg.screenshot_dir = some d →
      obs.osImageOk = true → obs.osWriteOk = true →
      ∃ p, (add_event_details cfg reg st e obs).map
          (fun l => pyLookup l "screenshot") = some (some (.pstr p)) ∧
        p ≠ "") ∧
    (cfg.take_screenshots = false →
      (add_event_details cfg reg st e obs).map
        (fun l => pyLookup l "screenshot") = some none) := by
  constructor
  · intro hts hdir himg hwrite
    refine ⟨d ++ "/" ++ ("screenshot_" ++ pad6 (st.screenshot_counter + 1) ++
      "_mouse_" ++ toString mx ++ "_" ++ toString myy ++ "_" ++
      obs.osTimestamp ++ ".png"), ?_, ?_⟩
    · unfold add_event_details add_event
      rw [if_pos ⟨htype, hts⟩, hpos]
      have hcap : capture_screenshot cfg.screenshot_dir
          vx vy (st.screenshot_counter + 1) obs =
          some (d ++ "/" ++ ("screenshot_" ++ pad6 (st.screenshot_counter + 1) ++
            "_mouse_" ++ toString mx ++ "_" ++ toString myy ++ "_" ++
            obs.osTimestamp ++ ".png")) := by
        rw [hdir]
        unfold capture_screenshot
        rw [himg]
        simp only [if_true, hvx, hvy]
        rw [hwrite]
        rfl
      have hx : pyLookup [("x", vx), ("y", vy)] "x" = some vx := rfl
      have hy : pyLookup [("x", vx), ("y", vy)] "y" = some vy := rfl
      simp only [pyGetAttr, hx, hy, Option.getD_some, exceptBind_ok]
      rw [hcap]
      simp [pyLookup_pySet_eq, pure, Except.pure, exceptBind_ok]
    · intro hemp
      have : (d ++ "/" ++ ("screenshot_" ++ pad6 (st.screenshot_counter + 1) ++
          "_mouse_" ++ toString mx ++ "_" ++ toString myy ++ "_" ++
          obs.osTimestamp ++ ".png")).length = 0 := by rw [hemp]; rfl
      have hslash : ("/" : String).length = 1 := rfl
      simp only [String.length_append, hslash] at this
      omega
  · intro hts
    unfold add_event_details add_event
    have hcond : ¬(e.event_type = "click" ∧ cfg.take_screenshots = true) := by
      intro hcc
      rw [hts] at hcc
      exact Bool.noConfusion hcc.2
    rw [if_neg hcond]
    simp [pure, Except.pure, exceptBind_ok, hns]

/-- Witness: screenshots enabled, directory set, OS capture succeeding —
the stored click event carries a non-empty screenshot path; and with
screenshots disabled the key is absent. -/
theorem add_event_screenshot_witness :
    (∃ p, (add_event_details
        { cfgNoDir with screenshot_dir := some "/tmp/shots" } [] stEmpty
        evClick obsOk).map (fun l => pyLookup l "screenshot") =
        some (some (.pstr p)) ∧ p ≠ "") ∧
    (add_event_details { cfgNoDir with take_screenshots := false } [] stEmpty
        evClick obsOk).map (fun l => pyLookup l "screenshot") = some none := by
  have hvx : pyToInt (PyVal.pnum (512 + 1 / 2)) = some 512 := by
    norm_num [pyToInt, ratTrunc]
  have hvy : pyToInt (PyVal.pnum 384) = some 384 := by
    norm_num [pyToInt, ratTrunc]
  exact ⟨(add_event_screenshot { cfgNoDir with screenshot_dir := some "/tmp/shots" }
      [] stEmpty evClick obsOk (PyVal.pnum (512 + 1 / 2)) (PyVal.pnum 384)
      512 384 "/tmp/shots" rfl rfl hvx hvy rfl).1 rfl rfl rfl rfl,
   (add_event_screenshot { cfgNoDir with take_screenshots := false }
      [] stEmpty evClick obsOk (PyVal.pnum (512 + 1 / 2)) (PyVal.pnum 384)
      512 384 "" rfl rfl hvx hvy rfl).2 rfl⟩

/-- C5 counterexample: a click on a resolved element (`evClick` carries an
`ElementInfo` dict) with screenshots enabled but capture failing (no
directory configured) — the accepted event has no `screenshot` key, against
the claim that it is always present when capture is enabled. -/
theorem add_event_screenshot_counterexample :
    cfgNoDir.take_screenshots = true ∧
      (add_event_details cfgNoDir [] stEmpty evClick obsOk).map
        (fun l => pyLookup l "screenshot") = some none := by
  exact ⟨rfl, rfl⟩

/-! Mouse monitor. -/

/-- C8 (corrected): one loop iteration emits a click exactly when a button
is sampled pressed and more than the 0.1 s minimum inter-click interval has
passed since the last emitted click — the debounce is purely time-based, a
held button re-emits after the interval (see the counterexample); the event
carries the button (`right` wins when both are pressed), the flipped-y
pointer position, and the `ElementInfo` payload or `none` exactly as the
position resolution succeeded or failed. -/
theorem track_mouse_step_spec (st : MouseState) (s : MouseSample) :
    ((s.buttons &&& 1 ≠ 0 ∨ s.buttons &&& 2 ≠ 0) ∧
        s.time - st.prev_click_time > 1 / 10 →
      (track_mouse_step st s).2 = some
        { button := if s.buttons &&& 2 ≠ 0 then "right" else "left",
          position := (s.locX, s.screenHeight - s.locY),
          element := s.elementAt, time := s.time } ∧
      ((track_mouse_step st s).1).prev_click_time = s.time) ∧
    (¬((s.buttons &&& 1 ≠ 0 ∨ s.buttons &&& 2 ≠ 0) ∧
        s.time - st.prev_click_time > 1 / 10) →
      (track_mouse_step st s).2 = none ∧
      ((track_mouse_step st s).1).prev_click_time = st.prev_click_time) := by
  constructor
  · intro hcl
    unfold track_mouse_step
    cases hpp : st.prev_position with
    | none =>
      dsimp only
      rw [if_pos hcl]
      cases he : s.elementAt <;> exact ⟨rfl, rfl⟩
    | some pp =>
      dsimp only
      by_cases hmv : |s.locX - pp.1| > 5 ∨ |s.screenHeight - s.locY - pp.2| > 5
      · rw [if_pos hmv]
        dsimp only
        rw [if_pos hcl]
        cases he : s.elementAt <;> exact ⟨rfl, rfl⟩
      · rw [if_neg hmv]
        dsimp only
        rw [if_pos hcl]
        cases he : s.elementAt <;> exact ⟨rfl, rfl⟩
  · intro hncl
    unfold track_mouse_step
    cases hpp : st.prev_position with
    | none =>
      dsimp only
      rw [if_neg hncl]
      exact ⟨rfl, rfl⟩
    | some pp =>
      dsimp only
      by_cases hmv : |s.locX - pp.1| > 5 ∨ |s.screenHeight - s.locY - pp.2| > 5
      · rw [if_pos hmv]
        dsimp only
        rw [if_neg hncl]
        exact ⟨rfl, rfl⟩
      · rw [if_neg hmv]
        dsimp only
        rw [if_neg hncl]
        exact ⟨rfl, rfl⟩

/-- A sample with the left button down over a resolvable element. -/
def sampleHeld (t : ℚ) : MouseSample :=
  { locX := 100, locY := 100, screenHeight := 900, buttons := 1, time := t,
    elementAt := some "btn" }

/-- Witness: a pressed sample past the interval emits one click with the
button, flipped position and element payload. -/
theorem track_mouse_step_spec_witness :
    (track_mouse_step mouseInit (sampleHeld 1)).2 =
      some { button := "left", position := (100, 800),
             element := some "btn", time := 1 } ∧
    ((track_mouse_step mouseInit (sampleHeld 1)).1).prev_click_time = 1 := by
  have h := (track_mouse_step_spec mouseInit (sampleHeld 1)).1
    ⟨Or.inl (by decide), by norm_num [sampleHeld, mouseInit]⟩
  constructor
  · rw [h.1]
    norm_num [sampleHeld]
  · rw [h.2]
    rfl

/-- C8 counterexample: a button held across two samples one second apart —
no new "not pressed to pressed" transition — still emits a second click
event, because the source debounces by time only and never tracks the
previous button state. -/
theorem track_mouse_held_counterexample :
    (track_mouse mouseInit [sampleHeld 1, sampleHeld 2]).2.length = 2 := by
  have h1 := (track_mouse_step_spec mouseInit (sampleHeld 1)).1
    ⟨Or.inl (by decide), by norm_num [sampleHeld, mouseInit]⟩
  have h2 := (track_mouse_step_spec (track_mouse_step mouseInit (sampleHeld 1)).1
      (sampleHeld 2)).1
    ⟨Or.inl (by decide), by rw [h1.2]; norm_num [sampleHeld]⟩
  simp [track_mouse, h1.1, h2.1]

/-! Timeline JSON framing and parsing. -/

/-- The separator-prefixed records after the first one. -/
def preJoin : List String → String
  | [] => ""
  | r :: rs => ",\n" ++ r ++ preJoin rs

theorem data_append (a b : String) : (a ++ b).data = a.data ++ b.data := rfl

theorem foldl_write_pos (recs : List String) (c : String) (n : Nat)
    (hn : 1 ≤ n) :
    recs.foldl write_to_timeline_json (c, n) =
      (c ++ preJoin recs, n + recs.length) := by
  induction recs generalizing c n with
  | nil => simp [preJoin]
  | cons r rs ih =>
    have hpos : n > 0 := hn
    simp only [List.foldl_cons, write_to_timeline_json, hpos, if_pos]
    rw [ih _ _ (by omega)]
    simp only [Prod.mk.injEq]
    refine ⟨?_, ?_⟩
    · simp [preJoin, String.append_assoc]
    · simp only [List.length_cons]
      omega

theorem sepJoin_eq_preJoin (r : String) (rs : List String) :
    sepJoin (r :: rs) = r ++ preJoin rs := by
  induction rs generalizing r with
  | nil => simp [sepJoin, preJoin]
  | cons r2 rs2 ih =>
    show r ++ ",\n" ++ sepJoin (r2 :: rs2) = _
    rw [ih r2]
    simp [preJoin, String.append_assoc]

theorem timeline_after_eq (recs : List String) :
    timeline_after recs = "[\n" ++ sepJoin recs ++ "\n]\n" := by
  cases recs with
  | nil => simp [timeline_after, sepJoin]
  | cons r rs =>
    unfold timeline_after
    simp only [List.foldl_cons, write_to_timeline_json]
    rw [if_neg (show ¬((0 : Nat) > 0) by omega)]
    rw [foldl_write_pos rs _ 1 (by omega), sepJoin_eq_preJoin]
    simp [String.append_assoc]

/-- The closing text that `stop()` leaves after the last record. -/
def tailClose : List Char := ['\n', ']', '\n']

/-- The array text after the first record: each later record preceded by
the `",\n"` separator, then the closing text. -/
def arrTail : List String → List Char
  | [] => tailClose
  | r :: rs => ',' :: '\n' :: (r.data ++ arrTail rs)

/-- The array text after the opening newline. -/
def bodyData : List String → List Char
  | [] => tailClose
  | r :: rs => r.data ++ arrTail rs

/-- Fuel sufficient to parse the given records as array elements. -/
def fuelNeeded (recs : List String) : Nat :=
  (recs.map String.length).sum + recs.length + 1

theorem fuelNeeded_cons (r : String) (rs : List String) :
    fuelNeeded (r :: rs) = r.length + fuelNeeded rs + 1 := by
  simp [fuelNeeded]
  omega

theorem skipWs_nl (t : List Char) : skipWs ('\n' :: t) = skipWs t := rfl

theorem skipWs_not_ws (c : Char) (t : List Char) (h : wsChar c = false) :
    skipWs (c :: t) = c :: t := by
  simp [skipWs, h]

theorem parseValue_ws_none (fuel : Nat) (c : Char) (t : List Char)
    (h : wsChar c = true) : parseValue fuel (c :: t) = none := by
  simp only [wsChar, Bool.decide_or, Bool.or_eq_true, decide_eq_true_eq] at h
  cases fuel with
  | zero => rfl
  | succ f =>
    rcases h with h | h | h | h <;> subst h <;> rfl

theorem parseValue_bad_head (fuel : Nat) (c : Char) (t : List Char)
    (h : c = ']' ∨ c = ',') : parseValue fuel (c :: t) = none := by
  cases fuel with
  | zero => rfl
  | succ f => rcases h with h | h <;> subst h <;> rfl

theorem selfDelim_data_ne_nil (r : String) (h : SelfDelimJson r) :
    r.data ≠ [] := by
  obtain ⟨v, hv⟩ := h
  intro hnil
  have hlen : r.length = 0 := by
    simp [String.length, hnil]
  have := hv 0 [] (by omega)
  rw [hnil] at this
  exact Option.noConfusion this

theorem selfDelim_head_ok (r : String) (h : SelfDelimJson r) (c : Char)
    (t : List Char) (hdata : r.data = c :: t) :
    wsChar c = false ∧ ¬c = ']' := by
  obtain ⟨v, hv⟩ := h
  have hp := hv r.length [] (le_refl _)
  rw [hdata] at hp
  simp only [List.append_nil] at hp
  constructor
  · cases hws : wsChar c with
    | false => rfl
    | true =>
      rw [parseValue_ws_none r.length c t hws] at hp
      exact Option.noConfusion hp
  · intro hc
    rw [parseValue_bad_head r.length c t (Or.inl hc)] at hp
    exact Option.noConfusion hp

theorem skipWs_selfDelim (r : String) (h : SelfDelimJson r) (x : List Char) :
    skipWs (r.data ++ x) = r.data ++ x := by
  cases hdata : r.data with
  | nil => exact absurd hdata (selfDelim_data_ne_nil r h)
  | cons c t =>
    have := (selfDelim_head_ok r h c t hdata).1
    simp only [List.cons_append]
    exact skipWs_not_ws c (t ++ x) this

theorem parseArrMore_close (f : Nat) (t : List Char) (acc : List Json) :
    parseArrMore (f + 1) (']' :: t) acc = some (.jarr acc.reverse, t) := rfl

theorem parseArrMore_comma (f : Nat) (t : List Char) (acc : List Json) :
    parseArrMore (f + 1) (',' :: t) acc =
      match parseValue f (skipWs t) with
      | none => none
      | some (v, r) => parseArrMore f (skipWs r) (v :: acc) := rfl

theorem parseArrBody_close (f : Nat) (t : List Char) :
    parseArrBody (f + 1) (']' :: t) = some (.jarr [], t) := rfl

theorem parseArrBody_elem (f : Nat) (c : Char) (t : List Char) (hc : ¬c = ']') :
    parseArrBody (f + 1) (c :: t) =
      match parseValue f (c :: t) with
      | none => none
      | some (v, r) => parseArrMore f (skipWs r) [v] := by
  simp [parseArrBody, hc]

theorem parseValue_open_bracket (f : Nat) (t : List Char) :
    parseValue (f + 1) ('[' :: t) = parseArrBody f (skipWs t) := rfl

theorem parseArrMore_all (recs : List String) (acc : List Json) (fuel : Nat)
    (hsd : ∀ r ∈ recs, SelfDelimJson r) (hfuel : fuelNeeded recs ≤ fuel) :
    ∃ vs, parseArrMore fuel (skipWs (arrTail recs)) acc =
      some (.jarr (acc.reverse ++ vs), ['\n']) ∧ vs.length = recs.length := by
  induction recs generalizing acc fuel with
  | nil =>
    obtain ⟨f, rfl⟩ : ∃ f, fuel = f + 1 := ⟨fuel - 1, by
      unfold fuelNeeded at hfuel
      omega⟩
    refine ⟨[], ?_, rfl⟩
    show parseArrMore (f + 1) (skipWs tailClose) acc = _
    rw [show skipWs tailClose = ']' :: ['\n'] from rfl, parseArrMore_close]
    simp
  | cons r rs ih =>
    rw [fuelNeeded_cons] at hfuel
    obtain ⟨f, rfl⟩ : ∃ f, fuel = f + 1 := ⟨fuel - 1, by omega⟩
    have hr := hsd r (by simp)
    obtain ⟨v, hv⟩ := hr
    show ∃ vs, parseArrMore (f + 1)
      (skipWs (',' :: '\n' :: (r.data ++ arrTail rs))) acc = _ ∧ _
    rw [skipWs_not_ws ',' _ (by rfl), parseArrMore_comma, skipWs_nl,
      skipWs_selfDelim r ⟨v, hv⟩ (arrTail rs),
      hv f (arrTail rs) (by omega)]
    obtain ⟨vs, hvs, hlen⟩ := ih (v :: acc) f
      (fun r2 hr2 => hsd r2 (List.mem_cons_of_mem r hr2)) (by omega)
    refine ⟨v :: vs, ?_, by simp [hlen]⟩
    show parseArrMore f (skipWs (arrTail rs)) (v :: acc) =
      some (.jarr (acc.reverse ++ v :: vs), ['\n'])
    rw [hvs]
    simp [List.append_assoc]

theorem parseArrBody_all (recs : List String) (fuel : Nat)
    (hsd : ∀ r ∈ recs, SelfDelimJson r) (hfuel : fuelNeeded recs + 1 ≤ fuel) :
    ∃ vs, parseArrBody fuel (skipWs ('\n' :: bodyData recs)) =
      some (.jarr vs, ['\n']) ∧ vs.length = recs.length := by
  obtain ⟨f, rfl⟩ : ∃ f, fuel = f + 1 := ⟨fuel - 1, by omega⟩
  cases recs with
  | nil =>
    refine ⟨[], ?_, rfl⟩
    show parseArrBody (f + 1) (skipWs ('\n' :: tailClose)) = _
    rw [show skipWs ('\n' :: tailClose) = ']' :: ['\n'] from rfl,
      parseArrBody_close]
  | cons r rs =>
    rw [fuelNeeded_cons] at hfuel
    have hr := hsd r (by simp)
    obtain ⟨v, hv⟩ := hr
    show ∃ vs, parseArrBody (f + 1) (skipWs ('\n' :: (r.data ++ arrTail rs))) = _ ∧ _
    rw [skipWs_nl, skipWs_selfDelim r ⟨v, hv⟩ (arrTail rs)]
    cases hdata : r.data with
    | nil => exact absurd hdata (selfDelim_data_ne_nil r ⟨v, hv⟩)
    | cons c t =>
      have hok := selfDelim_head_ok r ⟨v, hv⟩ c t hdata
      rw [List.cons_append, parseArrBody_elem f c (t ++ arrTail rs) hok.2]
      have hpv : parseValue f ((c :: t) ++ arrTail rs) = some (v, arrTail rs) := by
        rw [← hdata]
        exact hv f (arrTail rs) (by omega)
      simp only [List.cons_append] at hpv
      rw [hpv]
      obtain ⟨vs, hvs, hlen⟩ := parseArrMore_all rs [v] f
        (fun r2 hr2 => hsd r2 (List.mem_cons_of_mem r hr2)) (by omega)
      refine ⟨v :: vs, ?_, by simp [hlen]⟩
      show parseArrMore f (skipWs (arrTail rs)) [v] =
        some (.jarr (v :: vs), ['\n'])
      rw [hvs]
      simp

theorem bodyData_eq (recs : List String) :
    (sepJoin recs).data ++ tailClose = bodyData recs := by
  induction recs with
  | nil => rfl
  | cons r rs ih =>
    cases rs with
    | nil => rfl
    | cons r2 rs2 =>
      show (r ++ ",\n" ++ sepJoin (r2 :: rs2)).data ++ tailClose = _
      rw [data_append, data_append]
      show r.data ++ [',', '\n'] ++ (sepJoin (r2 :: rs2)).data ++ tailClose =
        r.data ++ (',' :: '\n' :: (r2.data ++ arrTail rs2))
      rw [List.append_assoc, List.append_assoc]
      congr 1
      show ',' :: '\n' :: ((sepJoin (r2 :: rs2)).data ++ tailClose) =
        ',' :: '\n' :: bodyData (r2 :: rs2)
      rw [ih]

/-- C4 (confirmed): the timeline file is `"[\n"`, the records joined by the
`",\n"` separator (need tracked by `timeline_entry_count`), and the closing
`"\n]\n"` of `stop()`; for every sequence of records that are complete JSON
value texts — as `json.dumps` produces — the resulting file parses as one
JSON array with exactly one element per accepted event. -/
theorem timeline_json_array (recs : List String)
    (hsd : ∀ r ∈ recs, SelfDelimJson r) :
    timeline_after recs = "[\n" ++ sepJoin recs ++ "\n]\n" ∧
      parsesAsJsonArray (timeline_after recs) recs.length := by
  refine ⟨timeline_after_eq recs, ?_⟩
  rw [timeline_after_eq recs]
  have hdata : ("[\n" ++ sepJoin recs ++ "\n]\n").data =
      '[' :: '\n' :: ((sepJoin recs).data ++ tailClose) := by
    rw [data_append, data_append]
    rfl
  obtain ⟨vs, hvs, hlen⟩ := parseArrBody_all recs (fuelNeeded recs + 1) hsd
    (le_refl _)
  refine ⟨fuelNeeded recs + 2, vs, ['\n'], ?_, rfl, hlen⟩
  rw [hdata, skipWs_not_ws '[' _ (by rfl), parseValue_open_bracket,
    show skipWs ('\n' :: ((sepJoin recs).data ++ tailClose)) =
      skipWs ('\n' :: bodyData recs) from by rw [skipWs_nl, skipWs_nl, bodyData_eq]]
  exact hvs

/-- The `"{}"` record: a complete JSON object text. -/
theorem selfDelim_emptyObj : SelfDelimJson "\x7b\x7d" := by
  refine ⟨.jobj [], ?_⟩
  intro fuel rest hle
  obtain ⟨f, rfl⟩ : ∃ f, fuel = f + 2 := ⟨fuel - 2, by
    have : ("\x7b\x7d" : String).length = 2 := rfl
    omega⟩
  rfl

/-- Witness: two `"{}"` records produce a file that is the framed join and
parses as a JSON array of length 2. -/
theorem timeline_json_array_witness :
    timeline_after ["\x7b\x7d", "\x7b\x7d"] =
      "[\n" ++ sepJoin ["\x7b\x7d", "\x7b\x7d"] ++ "\n]\n" ∧
      parsesAsJsonArray (timeline_after ["\x7b\x7d", "\x7b\x7d"]) 2 :=
  timeline_json_array ["\x7b\x7d", "\x7b\x7d"] (by
    intro r hr
    simp only [List.mem_cons, List.not_mem_nil, or_false] at hr
    rcases hr with h | h <;> exact h ▸ selfDelim_emptyObj)

end OSMonitor
